import Mathlib

/-!
# GoProjectFunctions: routers, registry, comparison engine, parsers, writer

A shallow embedding of the Go package `builtin` (files `builtin.go`,
`splitOnField.go`, `splitOnFieldJS.go`, `fileRouter.go`, `parseCSV.go`,
`parseFixedLengthTextFile.go`, `generateCSV.go`) and theorems about it.

Conventions of the embedding

* A Go `panic` is an `Except.error` carrying the panic text; a function that
  writes to an output port before it panics returns an `Outcome`, which keeps
  the entries written so far next to the fault.
* An `Execute` function is taken after `buildConfig`, on the configuration
  struct, and over the entries its reader yields; opening, reading and closing
  the ports are not part of the embedding.
* Go `string` is `String`; Go compares strings bytewise, which on UTF-8 text is
  the order of the code points (`strLt`).  Where Go counts or cuts bytes
  (`len`, a slice expression, the buffer of a scanner) so does the embedding,
  through the UTF-8 encoding of the text (`stringBytes`, `stringOfBytes`).
* Go `int` is taken at its 64-bit width; every integer payload is an `Int`
  and `Value.wf` states the range of its Go type.
* `float64` is `F64`, the three IEEE-754 binary64 bit fields, with the IEEE
  comparison (a NaN is unordered and unequal to everything, both zeros are
  equal).  A `float32` carries the `F64` it widens to (the widening is exact).
* `fmt.Sprintf("%d", n)`, `strconv.ParseInt`, `strconv.Atoi`,
  `strings.TrimSpace`, the fixed-point float text of `%f` and `%.0f`
  (`formatFixed`), the scanning of `bufio.Scanner`, and the text format of
  `encoding/csv` (`csvWrite`, `csvReadAll`) are defined here.  The Go standard
  library's float parsing and `%v` float text, regular expressions and time
  parsing (`GoLib`, `GoFmtV`) and the otto JavaScript interpreter (`Otto`) are
  parameters: the theorems hold for every behaviour of them.  The functions of
  the delimited parser take the results of the reader's `Read()` calls
  (`CsvReader`), which `parseCSV.reader` gives for the text of a file.
-/

namespace GoProjectFunctions

/-! ## Values -/

/-- An IEEE-754 binary64 value: sign bit, 11-bit biased exponent, 52-bit
fraction. -/
structure F64 where
  sign : Bool
  exp : Nat
  man : Nat
deriving DecidableEq, Repr

namespace F64

/-- Both fields are within their bit width. -/
def wf (f : F64) : Bool := decide (f.exp < 2048) && decide (f.man < 2 ^ 52)

/-- All exponent bits set and a non-zero fraction. -/
def isNaN (f : F64) : Bool := f.exp == 2047 && f.man != 0

/-- The sign-magnitude integer of the bit pattern.  On values that are not NaN
the IEEE order is the order of these integers, and the two zeros share 0. -/
def key (f : F64) : Int :=
  if f.sign then -((f.exp * 2 ^ 52 + f.man : Nat) : Int) else ((f.exp * 2 ^ 52 + f.man : Nat) : Int)

/-- Go `a < b` on float64. -/
def lt (a b : F64) : Bool := !a.isNaN && !b.isNaN && decide (a.key < b.key)

/-- Go `a <= b` on float64. -/
def le (a b : F64) : Bool := !a.isNaN && !b.isNaN && decide (a.key ≤ b.key)

/-- Go `a == b` on float64. -/
def eq (a b : F64) : Bool := !a.isNaN && !b.isNaN && decide (a.key = b.key)

/-- Go `a != b` on float64: the negation of `==`, so true when either is NaN. -/
def ne (a b : F64) : Bool := !(eq a b)

/-- Go `a > b` on float64. -/
def gt (a b : F64) : Bool := lt b a

/-- Go `a >= b` on float64. -/
def ge (a b : F64) : Bool := le b a

/-- The position of the leading bit of `n` (0 for `n < 2`); the fuel bounds
the number of halvings. -/
def leadingBit : Nat → Nat → Nat
  | 0, _ => 0
  | fuel + 1, n => if n < 2 then 0 else leadingBit fuel (n / 2) + 1

/-- The float64 of a natural number below 2^53 (exactly representable): the
exponent is that of the leading bit, the fraction the remaining bits. -/
def ofNat (n : Nat) : F64 :=
  if n = 0 then ⟨false, 0, 0⟩
  else ⟨false, 1023 + leadingBit 64 n, (n - 2 ^ leadingBit 64 n) * 2 ^ (52 - leadingBit 64 n)⟩

/-- The quiet NaN of bit pattern 0x7FF8000000000001, which is Go's
`math.NaN()` and what `strconv.ParseFloat` returns for the text `NaN`. -/
def nan : F64 := ⟨false, 2047, 2 ^ 51 + 1⟩

/-- Positive or negative infinity. -/
def inf (neg : Bool) : F64 := ⟨neg, 2047, 0⟩

end F64

/-- A dynamically typed Go value (`interface{}`) as the functions of this
package meet it: the types their type switches name, and the other kinds a
record can hold. -/
inductive Value where
  | nil
  | str (s : String)
  | int (n : Int)
  | int8 (n : Int)
  | int16 (n : Int)
  | int32 (n : Int)
  | int64 (n : Int)
  | float32 (f : F64)
  | float64 (f : F64)
  | bool (b : Bool)
  | time (t : Int)
deriving DecidableEq, Repr

namespace Value

/-- The payload is a value of its Go type: integers within the type's range,
floats within their bit fields. -/
def wf : Value → Bool
  | .int n => decide (-(2 : Int) ^ 63 ≤ n) && decide (n < 2 ^ 63)
  | .int8 n => decide (-(2 : Int) ^ 7 ≤ n) && decide (n < 2 ^ 7)
  | .int16 n => decide (-(2 : Int) ^ 15 ≤ n) && decide (n < 2 ^ 15)
  | .int32 n => decide (-(2 : Int) ^ 31 ≤ n) && decide (n < 2 ^ 31)
  | .int64 n => decide (-(2 : Int) ^ 63 ≤ n) && decide (n < 2 ^ 63)
  | .float32 f => f.wf
  | .float64 f => f.wf
  | _ => true

/-- The left operand types the comparison engine dispatches on. -/
inductive Family where
  | string
  | integer
  | float
deriving DecidableEq, Repr

/-- The type family of a value, none for a type the engine does not support. -/
def family : Value → Option Family
  | .str _ => some .string
  | .int _ | .int8 _ | .int16 _ | .int32 _ | .int64 _ => some .integer
  | .float32 _ | .float64 _ => some .float
  | _ => none

/-- A floating-point value that is a NaN. -/
def isNaN : Value → Bool
  | .float32 f => f.isNaN
  | .float64 f => f.isNaN
  | _ => false

end Value

/-! ## Strings -/

/-- Go `a < b` on the bytes of two strings, read off their code points (UTF-8
keeps the code point order): the first position where they differ decides, a
proper initial segment is smaller. -/
def bytesLt : List Char → List Char → Bool
  | _, [] => false
  | [], _ :: _ => true
  | a :: as, b :: bs =>
    if a.toNat < b.toNat then true else if b.toNat < a.toNat then false else bytesLt as bs

/-- Go `a < b` on strings. -/
def strLt (a b : String) : Bool := bytesLt a.data b.data

/-- The UTF-8 encoding of a character: the bytes a Go string holds for it. -/
def utf8Encode (c : Char) : List Nat :=
  if c.toNat < 128 then [c.toNat]
  else if c.toNat < 2048 then [192 + c.toNat / 64, 128 + c.toNat % 64]
  else if c.toNat < 65536 then
    [224 + c.toNat / 4096, 128 + c.toNat / 64 % 64, 128 + c.toNat % 64]
  else
    [240 + c.toNat / 262144, 128 + c.toNat / 4096 % 64, 128 + c.toNat / 64 % 64,
      128 + c.toNat % 64]

/-- The bytes of the Go string that holds a text. -/
def stringBytes : List Char → List Nat
  | [] => []
  | c :: cs => utf8Encode c ++ stringBytes cs

/-- Go `len(s)` on a string: its number of bytes. -/
def len (s : String) : Nat := (stringBytes s.data).length

/-- Go `utf8.RuneError`, U+FFFD. -/
def RuneError : Char := Char.ofNat 65533

/-- Go `utf8.DecodeRune`: the character at the head of the bytes and its width
in bytes.  A head that starts no valid encoding (a stray continuation byte, an
overlong or truncated form, a surrogate, a value above U+10FFFF) gives
`RuneError` and width 1; no byte at all gives `RuneError` and width 0. -/
def decodeRune : List Nat → Char × Nat
  | [] => (RuneError, 0)
  | s0 :: rest =>
    if s0 < 128 then (Char.ofNat s0, 1)
    else if s0 < 194 ∨ 245 ≤ s0 then (RuneError, 1)
    else
      match rest with
      | [] => (RuneError, 1)
      | s1 :: rest1 =>
        if s1 < (if s0 = 224 then 160 else if s0 = 240 then 144 else 128) ∨
            (if s0 = 237 then 159 else if s0 = 244 then 143 else 191) < s1 then (RuneError, 1)
        else if s0 < 224 then (Char.ofNat (s0 % 32 * 64 + s1 % 64), 2)
        else
          match rest1 with
          | [] => (RuneError, 1)
          | s2 :: rest2 =>
            if s2 < 128 ∨ 191 < s2 then (RuneError, 1)
            else if s0 < 240 then (Char.ofNat (s0 % 16 * 4096 + s1 % 64 * 64 + s2 % 64), 3)
            else
              match rest2 with
              | [] => (RuneError, 1)
              | s3 :: _ =>
                if s3 < 128 ∨ 191 < s3 then (RuneError, 1)
                else
                  (Char.ofNat (s0 % 8 * 262144 + s1 % 64 * 4096 + s2 % 64 * 64 + s3 % 64), 4)

/-- The characters Go reads from a run of bytes (`range s`, `[]rune(s)`): one
`decodeRune` after the other; the fuel bounds their number. -/
def decodeRunes : Nat → List Nat → List Char
  | 0, _ => []
  | _ + 1, [] => []
  | fuel + 1, b :: bs =>
    (decodeRune (b :: bs)).1 :: decodeRunes fuel ((b :: bs).drop (decodeRune (b :: bs)).2)

/-- The text of the Go string made of the given bytes.  A Go string is a run
of bytes and a text here a run of characters: bytes that are the UTF-8 encoding
of a text give that text back, and a byte that is part of no valid encoding (as
left by a slice that cuts through a character) is shown as U+FFFD, the way Go
itself reads it. -/
def stringOfBytes (bs : List Nat) : String := String.mk (decodeRunes bs.length bs)

/-! ## Integer text: `fmt.Sprintf("%d", n)` and `strconv.Atoi` -/

/-- The character of a decimal digit. -/
def digitChar (d : Nat) : Char := Char.ofNat (48 + d)

/-- Decimal digits of a natural number, most significant first; the fuel
bounds the number of digits. -/
def natDigitsFuel : Nat → Nat → List Char
  | 0, _ => []
  | fuel + 1, n =>
    if n < 10 then [digitChar n] else natDigitsFuel fuel (n / 10) ++ [digitChar (n % 10)]

/-- Decimal digits of a natural number. -/
def natDigits (n : Nat) : List Char := natDigitsFuel (n + 1) n

/-- Go `fmt.Sprintf("%d", n)` for an integer of any width. -/
def sprintfD (n : Int) : String :=
  if n < 0 then String.mk ('-' :: natDigits n.natAbs) else String.mk (natDigits n.natAbs)

/-- The value of a run of decimal digits read left to right from `acc`, none
when a character is not a digit. -/
def parseDigits : List Char → Nat → Option Nat
  | [], acc => some acc
  | c :: cs, acc =>
    if 48 ≤ c.toNat ∧ c.toNat ≤ 57 then parseDigits cs (acc * 10 + (c.toNat - 48)) else none

/-- Go `strconv.ParseInt(s, 10, 64)`: the value and whether the error is nil.
An optional sign, then one or more decimal digits.  A syntax error gives 0; a
value out of range gives the nearest bound. -/
def ParseInt (s : String) : Int × Bool :=
  match s.data with
  | [] => (0, false)
  | c :: rest =>
    let neg : Bool := decide (c.toNat = 45)
    let ds : List Char := if c.toNat = 43 ∨ c.toNat = 45 then rest else c :: rest
    if ds = [] then (0, false)
    else
      match parseDigits ds 0 with
      | none => (0, false)
      | some un =>
        if !neg && decide (2 ^ 63 ≤ un) then ((2 : Int) ^ 63 - 1, false)
        else if neg && decide (2 ^ 63 < un) then (-(2 : Int) ^ 63, false)
        else (if neg then -(un : Int) else (un : Int), true)

/-- Go `strconv.Atoi(s)` on a 64-bit platform: `ParseInt(s, 10, 0)` as `int`. -/
def Atoi (s : String) : Int × Bool := ParseInt s

/-! ## The standard library and record model the package is written against -/

/-- The parts of the Go standard library the package calls and this
development leaves open. -/
structure GoLib where
  /-- `fmt.Sprintf("%f", x)` for a float32 or float64 `x`. -/
  sprintfF : F64 → String
  /-- `fmt.Sprintf("%.0f", x)` for a float32 or float64 `x`. -/
  sprintf0F : F64 → String
  /-- `strconv.ParseFloat(s, 64)`: the value and whether the error is nil. -/
  parseFloat : String → F64 × Bool
  /-- `regexp.Match(pattern, []byte(s))`: the `matched` result. -/
  regexpMatch : String → String → Bool
  /-- `time.Parse(layout, s)`: the time, none on an error. -/
  timeParse : String → String → Option Int

/-- Modelled from the spec: `dataflow.Record`, whose package is outside the
sources.  A mapping from field name to value; `Get` reports absence without
faulting and field names are unique. -/
structure Record where
  fields : List (String × Value)
deriving DecidableEq, Repr

namespace Record

/-- `Get(name)`: the value and whether the field is present (nil when absent). -/
def Get (r : Record) (name : String) : Value × Bool :=
  match r.fields.lookup name with
  | some v => (v, true)
  | none => (Value.nil, false)

/-- Replace the value of a field that is present, append it otherwise. -/
def setField (name : String) (v : Value) : List (String × Value) → List (String × Value)
  | [] => [(name, v)]
  | (k, w) :: rest => if k = name then (k, v) :: rest else (k, w) :: setField name v rest

/-- `Set(name, value)`. -/
def Set (r : Record) (name : String) (v : Value) : Record := ⟨setField name v r.fields⟩

end Record

/-- Modelled from the spec: `dataflow.File`, a named byte stream. -/
structure File where
  filename : String
  content : List Nat
deriving DecidableEq, Repr

/-- Modelled from the spec: an input entry is exactly one of a record and a
file. -/
inductive Entry where
  | record (r : Record)
  | file (f : File)
deriving DecidableEq, Repr

namespace Entry

/-- `GetAsRecord()`: fails when the entry is not a record. -/
def GetAsRecord : Entry → Except String Record
  | .record r => .ok r
  | .file _ => .error "entry is not a record"

/-- `GetAsFile()`: fails when the entry is not a file. -/
def GetAsFile : Entry → Except String File
  | .file f => .ok f
  | .record _ => .error "entry is not a file"

end Entry

/-- What a function wrote to its output ports, in order, and the panic that
ended it, if one did. -/
structure Outcome (ω : Type) where
  written : List ω
  fault : Option String
deriving DecidableEq, Repr

/-! ## splitOnField.go -/

/-- The struct `splitRule`. -/
structure splitRule where
  field : String
  op : String
  value : Value
  valueType : String
  outputPort : String
deriving DecidableEq, Repr

/-- The struct `splitConfig`: the rules and the port for data no rule matches. -/
structure splitConfig where
  rules : List splitRule
  defaultOutputPort : String
deriving DecidableEq, Repr

/-- `compareAsStrings(left, op, right)`. -/
def compareAsStrings (lib : GoLib) (left : String) (op : String) (right : Value) :
    Except String Bool := do
  let rightStr ← match right with
    | .str s => pure s
    | .int n | .int8 n | .int16 n | .int32 n | .int64 n => pure (sprintfD n)
    | .float32 f | .float64 f => pure (lib.sprintfF f)
    | _ => throw "Unsupported type in split rule config"
  if op = "<" then pure (strLt left rightStr)
  else if op = "<=" then pure (!strLt rightStr left)
  else if op = "==" then pure (decide (left = rightStr))
  else if op = "!=" then pure (!decide (left = rightStr))
  else if op = ">" then pure (strLt rightStr left)
  else if op = ">=" then pure (!strLt left rightStr)
  else if op = "regex" then pure (lib.regexpMatch rightStr left)
  else throw "Unsupported split op"

/-- `compareAsInts(left, op, right)`; the error of `Atoi` is dropped, as in the
source. -/
def compareAsInts (lib : GoLib) (left : Int) (op : String) (right : Value) :
    Except String Bool := do
  let rightInt ← match right with
    | .str s => pure (Atoi s).1
    | .int n => pure n
    | .int8 n | .int16 n | .int32 n | .int64 n => pure (Atoi (sprintfD n)).1
    | .float32 f | .float64 f => pure (Atoi (lib.sprintf0F f)).1
    | _ => throw "Unsupported type in split rule config"
  if op = "<" then pure (decide (left < rightInt))
  else if op = "<=" then pure (decide (left ≤ rightInt))
  else if op = "==" then pure (decide (left = rightInt))
  else if op = "!=" then pure (!decide (left = rightInt))
  else if op = ">" then pure (decide (rightInt < left))
  else if op = ">=" then pure (decide (rightInt ≤ left))
  else throw "Unsupported split op"

/-- `compareAsFloats(left, op, right)`; the error of `ParseFloat` is dropped,
as in the source. -/
def compareAsFloats (lib : GoLib) (left : F64) (op : String) (right : Value) :
    Except String Bool := do
  let rightFloat ← match right with
    | .str s => pure (lib.parseFloat s).1
    | .int n | .int8 n | .int16 n | .int32 n | .int64 n => pure (lib.parseFloat (sprintfD n)).1
    | .float32 f => pure f
    | .float64 f => pure f
    | _ => throw "Unsupported type in split rule config"
  if op = "<" then pure (F64.lt left rightFloat)
  else if op = "<=" then pure (F64.le left rightFloat)
  else if op = "==" then pure (F64.eq left rightFloat)
  else if op = "!=" then pure (F64.ne left rightFloat)
  else if op = ">" then pure (F64.gt left rightFloat)
  else if op = ">=" then pure (F64.ge left rightFloat)
  else throw "Unsupported split op"

/-- The type switch of `splitOnField.matches` (lines 97-116): the comparison
engine's `compare(left, op, right)`, dispatching on the left operand. -/
def compare (lib : GoLib) (leftValue : Value) (op : String) (rightValue : Value) :
    Except String Bool :=
  match leftValue with
  | .str s => compareAsStrings lib s op rightValue
  | .int n => compareAsInts lib n op rightValue
  | .int8 n => compareAsInts lib n op rightValue
  | .int16 n => compareAsInts lib n op rightValue
  | .int32 n => compareAsInts lib n op rightValue
  | .int64 n => compareAsInts lib n op rightValue
  | .float32 f => compareAsFloats lib f op rightValue
  | .float64 f => compareAsFloats lib f op rightValue
  | _ => .error "Unsupported type in split rule config"

/-- `splitOnField.matches(record, rule)`. -/
def splitOnField.matches (lib : GoLib) (record : Record) (rule : splitRule) :
    Except String Bool := do
  let leftValue := (record.Get rule.field).1
  let rightValue ←
    if rule.valueType = "literal" then pure rule.value
    else match rule.value with
      | .str name => pure (record.Get name).1
      | _ => throw "interface conversion: interface is not string"
  compare lib leftValue rule.op rightValue

/-- The rule loop of `splitOnField.Execute` (lines 254-260): `dest` is
`destPort`, assigned on every match. -/
def splitOnField.destPort (lib : GoLib) (recVal : Record) :
    List splitRule → String → Except String String
  | [], dest => .ok dest
  | curRule :: rest, dest =>
    match splitOnField.matches lib recVal curRule with
    | .error e => .error e
    | .ok m => splitOnField.destPort lib recVal rest (if m then curRule.outputPort else dest)

/-- The record loop of `splitOnField.Execute` (lines 241-266) over the entries
the reader still holds; `out` is what has been written. -/
def splitOnField.loop (lib : GoLib) (splitOpts : splitConfig) :
    List Entry → List (String × Record) → Outcome (String × Record)
  | [], out => ⟨out, none⟩
  | rec :: rest, out =>
    match rec.GetAsRecord with
    | .error _ => ⟨out, some "Failed to read record as a map"⟩
    | .ok recVal =>
      match splitOnField.destPort lib recVal splitOpts.rules splitOpts.defaultOutputPort with
      | .error e => ⟨out, some e⟩
      | .ok destPort => splitOnField.loop lib splitOpts rest (out ++ [(destPort, recVal)])

/-- `splitOnField.Execute` on a built configuration and the entries of the
default input port: the (port, record) pairs passed to `WriteRecord`. -/
def splitOnField.Execute (lib : GoLib) (splitOpts : splitConfig) (input : List Entry) :
    Outcome (String × Record) :=
  splitOnField.loop lib splitOpts input []

/-! ## splitOnFieldJS.go and fileRouter.go -/

/-- The otto JavaScript interpreter as the two routers use it, bound to data
of type `α` (a record, or a `fileInfo`).  Each rule's condition is wrapped in
a function `splitRuleFunc_i`, a name used for that rule only, so a call of the
i-th rule's `jsFuncName` runs the i-th rule's condition; a condition is taken
to leave the interpreter as it found it, so its outcome depends on the
condition and the data only. -/
structure Otto (α : Type) where
  /-- `vm.Run` of the function wrapped round a condition: the error, if any. -/
  run : String → Option String
  /-- `vm.Call` of the function wrapped round a condition on the bound data,
  then `ToBoolean`: the boolean, or the error of either step. -/
  call : String → α → Except String Bool

/-- The compile loop of both `Execute` functions (the loop `Parse all the JS
rules`): the first error of `vm.Run` over the conditions, in order. -/
def Otto.compileAll {α : Type} (vm : Otto α) : List String → Option String
  | [] => none
  | c :: rest =>
    match vm.run c with
    | some e => some e
    | none => Otto.compileAll vm rest

/-- The struct `splitRuleJS`.  The field `jsFuncName`, which the compile loop
fills with the generated name of the rule's function, is left out: the rule's
function is called through its condition (see `Otto`). -/
structure splitRuleJS where
  jsCondition : String
  outputPort : String
deriving DecidableEq, Repr

/-- The struct `splitConfigJS`. -/
structure splitConfigJS where
  rules : List splitRuleJS
  defaultOutputPort : String
deriving DecidableEq, Repr

/-- The rule loop of `splitOnFieldJS.Execute` (lines 147-166): on the first
condition that is true the record is written to that rule's port and the loop
is left.  Returns `matchFound` and the output so far. -/
def splitOnFieldJS.rules (vm : Otto Record) (recVal : Record) :
    List splitRuleJS → List (String × Record) → Except String (Bool × List (String × Record))
  | [], out => .ok (false, out)
  | curRule :: rest, out =>
    match vm.call curRule.jsCondition recVal with
    | .error e => .error e
    | .ok true => .ok (true, out ++ [(curRule.outputPort, recVal)])
    | .ok false => splitOnFieldJS.rules vm recVal rest out

/-- The record loop of `splitOnFieldJS.Execute` (lines 132-174). -/
def splitOnFieldJS.loop (vm : Otto Record) (splitOpts : splitConfigJS) :
    List Entry → List (String × Record) → Outcome (String × Record)
  | [], out => ⟨out, none⟩
  | rec :: rest, out =>
    match rec.GetAsRecord with
    | .error _ => ⟨out, some "Failed to read record as a map"⟩
    | .ok recVal =>
      match splitOnFieldJS.rules vm recVal splitOpts.rules out with
      | .error e => ⟨out, some e⟩
      | .ok (matchFound, out1) =>
        splitOnFieldJS.loop vm splitOpts rest
          (if !matchFound then out1 ++ [(splitOpts.defaultOutputPort, recVal)] else out1)

/-- `splitOnFieldJS.Execute` on a built configuration and the entries of the
default input port. -/
def splitOnFieldJS.Execute (vm : Otto Record) (splitOpts : splitConfigJS) (input : List Entry) :
    Outcome (String × Record) :=
  match vm.compileAll (splitOpts.rules.map splitRuleJS.jsCondition) with
  | some e => ⟨[], some e⟩
  | none => splitOnFieldJS.loop vm splitOpts input []

/-- The struct `fileRouterRule`, with `jsFuncName` left out as in
`splitRuleJS`. -/
structure fileRouterRule where
  jsCondition : String
  outputPort : String
deriving DecidableEq, Repr

/-- The struct `fileRouterConfig`. -/
structure fileRouterConfig where
  rules : List fileRouterRule
  defaultOutputPort : String
deriving DecidableEq, Repr

/-- The struct `fileInfo`. -/
structure fileInfo where
  Filename : String
deriving DecidableEq, Repr

/-- The rule loop of `fileRouter.Execute` (lines 160-177): `port` is
`outputPort`, assigned on every condition that is true. -/
def fileRouter.outputPort (vm : Otto fileInfo) (info : fileInfo) :
    List fileRouterRule → String → Except String String
  | [], port => .ok port
  | curRule :: rest, port =>
    match vm.call curRule.jsCondition info with
    | .error e => .error e
    | .ok m => fileRouter.outputPort vm info rest (if m then curRule.outputPort else port)

/-- The file loop of `fileRouter.Execute` (lines 142-183): a written entry is
the port and the file whose content was copied to it. -/
def fileRouter.loop (vm : Otto fileInfo) (configOpts : fileRouterConfig) :
    List Entry → List (String × File) → Outcome (String × File)
  | [], out => ⟨out, none⟩
  | curEntry :: rest, out =>
    match curEntry.GetAsFile with
    | .error e => ⟨out, some e⟩
    | .ok curFile =>
      match fileRouter.outputPort vm ⟨curFile.filename⟩ configOpts.rules
          configOpts.defaultOutputPort with
      | .error e => ⟨out, some e⟩
      | .ok port => fileRouter.loop vm configOpts rest (out ++ [(port, curFile)])

/-- `fileRouter.Execute` on a built configuration and the entries of the
default input port. -/
def fileRouter.Execute (vm : Otto fileInfo) (configOpts : fileRouterConfig) (input : List Entry) :
    Outcome (String × File) :=
  match vm.compileAll (configOpts.rules.map fileRouterRule.jsCondition) with
  | some e => ⟨[], some e⟩
  | none => fileRouter.loop vm configOpts input []

/-- The dispatch the specification gives both scripted routers, on the boolean
outcomes of the conditions in rule order, each with its rule's port: the port
of the first outcome that is true, the default port when none is. -/
def firstMatchPort : List (Bool × String) → String → String
  | [], dflt => dflt
  | (true, port) :: _, _ => port
  | (false, _) :: rest, dflt => firstMatchPort rest dflt

/-! ## builtin.go -/

/-- Modelled from the spec: `dataflow.FunctionSpec`, whose package is outside
the sources; the fields are those the registrations fill in. -/
structure FunctionSpec where
  Key : String
  Name : String
  Description : String
  Category : String
  ExecutionMode : String
  InputPorts : List String
  OutputPorts : List String
deriving DecidableEq, Repr

/-- The struct `Function`: metadata and constructor.  `φ` is the type of
function instances (`dataflow.Function`). -/
structure Function (φ : Type) where
  FunctionSpec : FunctionSpec
  NewFunction : Unit → φ

/-- The struct `FunctionProvider`. -/
structure FunctionProvider (φ : Type) where
  functions : List (Function φ)

/-- The two results of a lookup, and the positions (in `functions`) of the
entries whose constructor the call invoked. -/
structure Lookup (α : Type) where
  value : Option α
  err : Option String
  constructed : List Nat
deriving DecidableEq, Repr

/-- A provider with no function, what `DefaultInstance` first creates. -/
def FunctionProvider.empty (φ : Type) : FunctionProvider φ := ⟨[]⟩

/-- `RegisterFunction(bf)`: the provider afterwards and the error returned. -/
def FunctionProvider.RegisterFunction {φ : Type} (bfp : FunctionProvider φ) (bf : Function φ) :
    FunctionProvider φ × Option String :=
  (⟨bfp.functions ++ [bf]⟩, none)

/-- A sequence of `RegisterFunction` calls, in order. -/
def FunctionProvider.registerAll {φ : Type} (bfp : FunctionProvider φ) :
    List (Function φ) → FunctionProvider φ
  | [] => bfp
  | bf :: rest => FunctionProvider.registerAll (bfp.RegisterFunction bf).1 rest

/-- The loop of `GetFunctionSpecByKey` from position `i`. -/
def FunctionProvider.specLoop {φ : Type} (key : String) :
    List (Function φ) → Nat → Lookup FunctionSpec
  | [], _ => ⟨none, none, []⟩
  | cur :: rest, i =>
    if cur.FunctionSpec.Key = key then ⟨some cur.FunctionSpec, none, []⟩
    else FunctionProvider.specLoop key rest (i + 1)

/-- `GetFunctionSpecByKey(key)`. -/
def FunctionProvider.GetFunctionSpecByKey {φ : Type} (bfp : FunctionProvider φ) (key : String) :
    Lookup FunctionSpec :=
  FunctionProvider.specLoop key bfp.functions 0

/-- The loop of `NewFunction` from position `i`. -/
def FunctionProvider.newLoop {φ : Type} (key : String) :
    List (Function φ) → Nat → Lookup φ
  | [], _ => ⟨none, none, []⟩
  | cur :: rest, i =>
    if cur.FunctionSpec.Key = key then ⟨some (cur.NewFunction ()), none, [i]⟩
    else FunctionProvider.newLoop key rest (i + 1)

/-- `NewFunction(key)`. -/
def FunctionProvider.NewFunction {φ : Type} (bfp : FunctionProvider φ) (key : String) :
    Lookup φ :=
  FunctionProvider.newLoop key bfp.functions 0

/-! ## parseCSV.go -/

/-- Go `unicode.IsSpace`, by code point. -/
def isSpace (c : Char) : Bool :=
  let n := c.toNat
  (9 ≤ n && n ≤ 13) || n == 32 || n == 133 || n == 160 || n == 5760 ||
    (8192 ≤ n && n ≤ 8202) || n == 8232 || n == 8233 || n == 8239 || n == 8287 || n == 12288

/-- Go `strings.TrimSpace`. -/
def TrimSpace (s : String) : String :=
  String.mk ((s.data.dropWhile isSpace).reverse.dropWhile isSpace).reverse

/-- The struct `parseCSVColumn`. -/
structure parseCSVColumn where
  index : Int
  columnName : String
  datatype : String
  format : String
  fieldName : String
deriving DecidableEq, Repr

/-- The struct `parseCSVConfig`. -/
structure parseCSVConfig where
  hasHeaderRow : Bool
  useHeaderColumnNamesAsFieldNames : Bool
  ignoreUnmappedColumns : Bool
  delimiter : String
  columns : List parseCSVColumn
deriving DecidableEq, Repr

/-- The struct `parseCSV`.  The field `headerIndexMap`, which `parseFile` fills
and nothing reads, is left out. -/
structure parseCSV where
  config : parseCSVConfig
  headerNames : List String
deriving DecidableEq, Repr

/-- What one `Read()` of an `encoding/csv` reader returns. -/
inductive CsvRead where
  | row (fields : List String)
  | eof
  | err (msg : String)
deriving DecidableEq, Repr

/-- An `encoding/csv` reader over a file, by the rows and errors its
successive `Read()` calls return before the end of the input; every later call
returns `io.EOF`.  The delimiter set on the reader is part of how the file was
split into these rows. -/
abbrev CsvReader := List (Except String (List String))

/-- `csv.Read()`: the result and the reader afterwards. -/
def csvRead : CsvReader → CsvRead × CsvReader
  | [] => (CsvRead.eof, [])
  | .ok fields :: rest => (CsvRead.row fields, rest)
  | .error msg :: rest => (CsvRead.err msg, rest)

/-- Modelled from the spec: `dataflow.DEFAULT_OUTPUT_PORT_NAME`, the name of
the well-known default output port; the package that declares it is outside
the sources and this text stands for its value. -/
def DEFAULT_OUTPUT_PORT_NAME : String := "default"

/-- `getColumnConfigByHeaderName(headerName)`. -/
def parseCSV.getColumnConfigByHeaderName (f : parseCSV) (headerName : String) :
    Option parseCSVColumn :=
  f.config.columns.find? (fun c => decide (c.columnName = headerName))

/-- `getColumnConfigByIndex(index)`. -/
def parseCSV.getColumnConfigByIndex (f : parseCSV) (index : Int) : Option parseCSVColumn :=
  f.config.columns.find? (fun c => decide (c.index = index))

/-- The column config `parseLine` finds for raw column `recIdx` (lines
218-227): by header name when there is a header row, and by position when that
gave nothing.  Indexing `headerNames` out of range is a run-time panic. -/
def parseCSV.resolve (f : parseCSV) (recIdx : Nat) : Except String (Option parseCSVColumn) := do
  let byName ←
    if f.config.hasHeaderRow then
      match f.headerNames[recIdx]? with
      | some headerName => pure (f.getColumnConfigByHeaderName headerName)
      | none => throw "runtime error: index out of range"
    else pure none
  match byName with
  | some colConfig => pure (some colConfig)
  | none => pure (f.getColumnConfigByIndex (recIdx : Int))

/-- The value `parseLine` reads from a cell under a column config (lines
239-263); a conversion error and an unknown datatype are panics. -/
def parseCSV.convert (lib : GoLib) (colConfig : parseCSVColumn) (curRec : String) :
    Except String Value :=
  if colConfig.datatype = "string" then .ok (Value.str curRec)
  else if colConfig.datatype = "integer" then
    match ParseInt curRec with
    | (valInt, true) => .ok (Value.int64 valInt)
    | (_, false) => .error "strconv.ParseInt: parsing failed"
  else if colConfig.datatype = "decimal" then
    match lib.parseFloat curRec with
    | (valFloat, true) => .ok (Value.float64 valFloat)
    | (_, false) => .error "strconv.ParseFloat: parsing failed"
  else if colConfig.datatype = "date" then
    match lib.timeParse colConfig.format (TrimSpace curRec) with
    | some valDate => .ok (Value.time valDate)
    | none => .error "parsing time failed"
  else
    .error ("Unsupported dataype " ++ colConfig.datatype ++ " for column " ++ colConfig.fieldName)

/-- The text `parseLine` panics with at line 236. -/
def unmappedColumnPanic : String :=
  "Unable to output CSV field. There must be a header row OR a column config for each column, if ignoreUnmappedColumns is false"

/-- The loop of `parseLine` (lines 215-264) from raw column `recIdx`, over the
cells not yet read; `rec` is the record built so far. -/
def parseCSV.parseLineFrom (lib : GoLib) (f : parseCSV) :
    Nat → List String → Record → Except String Record
  | _, [], rec => .ok rec
  | recIdx, curRec :: rest, rec =>
    match f.resolve recIdx with
    | .error e => .error e
    | .ok none =>
      if f.config.ignoreUnmappedColumns then parseCSV.parseLineFrom lib f (recIdx + 1) rest rec
      else if !f.config.hasHeaderRow then
        .error unmappedColumnPanic
      else .error "runtime error: invalid memory address or nil pointer dereference"
    | .ok (some colConfig) =>
      match parseCSV.convert lib colConfig curRec with
      | .error e => .error e
      | .ok v => parseCSV.parseLineFrom lib f (recIdx + 1) rest (rec.Set colConfig.fieldName v)

/-- `parseLine(record)`. -/
def parseCSV.parseLine (lib : GoLib) (f : parseCSV) (record : List String) :
    Except String Record :=
  parseCSV.parseLineFrom lib f 0 record ⟨[]⟩

/-- The row loop of `parseFile` (lines 171-189): `curRec` is the row in hand,
then the reader and what has been written.  Each pass parses the row, writes
the record and reads the next row; the read is `csvRead`, spelled out on the
three shapes of the reader: at the end of the input the loop is left, a row is
the next `curRec`, any other error is a panic. -/
def parseCSV.rowLoop (lib : GoLib) (f : parseCSV) :
    List String → CsvReader → List (String × Record) → Outcome (String × Record)
  | curRec, [], out =>
    match parseCSV.parseLine lib f curRec with
    | .error e => ⟨out, some e⟩
    | .ok recObj => ⟨out ++ [(DEFAULT_OUTPUT_PORT_NAME, recObj)], none⟩
  | curRec, .error msg :: _, out =>
    match parseCSV.parseLine lib f curRec with
    | .error e => ⟨out, some e⟩
    | .ok recObj => ⟨out ++ [(DEFAULT_OUTPUT_PORT_NAME, recObj)], some msg⟩
  | curRec, .ok next :: csv1, out =>
    match parseCSV.parseLine lib f curRec with
    | .error e => ⟨out, some e⟩
    | .ok recObj => parseCSV.rowLoop lib f next csv1 (out ++ [(DEFAULT_OUTPUT_PORT_NAME, recObj)])

/-- The part of `parseFile` after the header (lines 165-189): the first read,
whose every error is a panic, the end of the input included, then the row
loop. -/
def parseCSV.dataRows (lib : GoLib) (f : parseCSV) (csv : CsvReader) :
    Outcome (String × Record) :=
  match csvRead csv with
  | (CsvRead.eof, _) => ⟨[], some "EOF"⟩
  | (CsvRead.err msg, _) => ⟨[], some msg⟩
  | (CsvRead.row curRec, csv1) => parseCSV.rowLoop lib f curRec csv1 []

/-- `parseFile(file, out)` on the csv reader opened over the file: the records
written to the default output port. -/
def parseCSV.parseFile (lib : GoLib) (f : parseCSV) (csv : CsvReader) :
    Outcome (String × Record) :=
  if f.config.hasHeaderRow then
    match csvRead csv with
    | (CsvRead.eof, _) => ⟨[], some "EOF"⟩
    | (CsvRead.err msg, _) => ⟨[], some msg⟩
    | (CsvRead.row header, csv1) =>
      parseCSV.dataRows lib { f with headerNames := header } csv1
  else parseCSV.dataRows lib f csv

/-! ## parseFixedLengthTextFile.go

The offsets of a column are byte offsets into the line, as in Go: a line is
measured by `len` and sliced through `stringBytes`. -/

/-- The struct `parseFixedLengthColumn`. -/
structure parseFixedLengthColumn where
  start : Int
  length : Int
  datatype : String
  format : String
  fieldName : String
deriving DecidableEq, Repr

/-- The offsets of a column are values of Go's 64-bit `int`. -/
def parseFixedLengthColumn.wf (col : parseFixedLengthColumn) : Bool :=
  decide (-(2 : Int) ^ 63 ≤ col.start) && decide (col.start < 2 ^ 63) &&
    decide (-(2 : Int) ^ 63 ≤ col.length) && decide (col.length < 2 ^ 63)

/-- The struct `parseFixedLengthConfig`. -/
structure parseFixedLengthConfig where
  hasHeaderRow : Bool
  columns : List parseFixedLengthColumn
deriving DecidableEq, Repr

/-- The struct `parseFixedLength`. -/
structure parseFixedLength where
  config : parseFixedLengthConfig
deriving DecidableEq, Repr

/-- Go `a + b` on 64-bit `int`: the sum, wrapped into the range of the type. -/
def addInt (a b : Int) : Int := (a + b + 2 ^ 63) % 2 ^ 64 - 2 ^ 63

/-- The text of the run-time panic of a slice expression out of range. -/
def sliceBoundsPanic : String := "runtime error: slice bounds out of range"

/-- Go `s[lo:hi]` on a string: a run-time panic unless
`0 <= lo <= hi <= len(s)`, and otherwise the bytes of `s` from offset `lo` up
to offset `hi`, as the text `stringOfBytes` makes of them. -/
def sliceString (s : String) (lo hi : Int) : Except String String :=
  if 0 ≤ lo ∧ lo ≤ hi ∧ hi ≤ (len s : Int) then
    .ok (stringOfBytes (((stringBytes s.data).drop lo.toNat).take (hi.toNat - lo.toNat)))
  else .error sliceBoundsPanic

/-- The value `parseFixedLength.parseLine` stores for a column from the slice
`valStr` (lines 152-175); a conversion error and an unknown datatype are
panics. -/
def parseFixedLength.convert (lib : GoLib) (col : parseFixedLengthColumn) (valStr : String) :
    Except String Value :=
  if col.datatype = "string" then .ok (Value.str (TrimSpace valStr))
  else if col.datatype = "integer" then
    match ParseInt (TrimSpace valStr) with
    | (valInt, true) => .ok (Value.int64 valInt)
    | (_, false) => .error "strconv.ParseInt: parsing failed"
  else if col.datatype = "decimal" then
    match lib.parseFloat (TrimSpace valStr) with
    | (valFloat, true) => .ok (Value.float64 valFloat)
    | (_, false) => .error "strconv.ParseFloat: parsing failed"
  else if col.datatype = "date" then
    match lib.timeParse col.format (TrimSpace valStr) with
    | some valDate => .ok (Value.time valDate)
    | none => .error "parsing time failed"
  else
    .error ("Unsupported dataype " ++ col.datatype ++ " for column " ++ col.fieldName)

/-- The loop of `parseFixedLength.parseLine` (lines 148-176) over the columns
not yet read; `rec` is the record built so far. -/
def parseFixedLength.parseLineFrom (lib : GoLib) (line : String) :
    List parseFixedLengthColumn → Record → Except String Record
  | [], rec => .ok rec
  | col :: rest, rec =>
    match sliceString line col.start (addInt col.start col.length) with
    | .error e => .error e
    | .ok valStr =>
      match parseFixedLength.convert lib col valStr with
      | .error e => .error e
      | .ok v => parseFixedLength.parseLineFrom lib line rest (rec.Set col.fieldName v)

/-- `parseFixedLength.parseLine(line)`. -/
def parseFixedLength.parseLine (lib : GoLib) (f : parseFixedLength) (line : String) :
    Except String Record :=
  parseFixedLength.parseLineFrom lib line f.config.columns ⟨[]⟩

/-- The tokens of the loop `for scan.Scan()`: those of the calls up to the
first one that returns false. -/
def scannedLines : List (Option String) → List String
  | some line :: rest => line :: scannedLines rest
  | _ => []

/-- The line loop of `parseFixedLength.parseFile` (lines 133-142) over the
lines the scanner still yields; `out` is what has been written. -/
def parseFixedLength.lineLoop (lib : GoLib) (f : parseFixedLength) :
    List String → List (String × Record) → Outcome (String × Record)
  | [], out => ⟨out, none⟩
  | line :: rest, out =>
    match parseFixedLength.parseLine lib f line with
    | .error e => ⟨out, some e⟩
    | .ok rec => parseFixedLength.lineLoop lib f rest (out ++ [(DEFAULT_OUTPUT_PORT_NAME, rec)])

/-- `parseFixedLength.parseFile(file, out)` on the results of the scanner over
the file: with `hasHeaderRow` one call of `scan.Scan()` is spent before the
loop, whatever it returns, and its token is never read. -/
def parseFixedLength.parseFile (lib : GoLib) (f : parseFixedLength)
    (scan : List (Option String)) : Outcome (String × Record) :=
  parseFixedLength.lineLoop lib f
    (scannedLines (if f.config.hasHeaderRow then scan.drop 1 else scan)) []

/-! ## generateCSV.go -/

/-- The texts `fmt.Sprintf("%v", x)` gives for the kinds of value this
development leaves open: a float64, a float32 (by the float64 it widens to) and
a time. -/
structure GoFmtV where
  float64V : F64 → String
  float32V : F64 → String
  timeV : Int → String

/-- Go `fmt.Sprintf("%v", val)` on a value. -/
def sprintfV (fmtV : GoFmtV) : Value → String
  | .nil => "<nil>"
  | .str s => s
  | .int n => sprintfD n
  | .int8 n => sprintfD n
  | .int16 n => sprintfD n
  | .int32 n => sprintfD n
  | .int64 n => sprintfD n
  | .float32 f => fmtV.float32V f
  | .float64 f => fmtV.float64V f
  | .bool b => if b then "true" else "false"
  | .time t => fmtV.timeV t

/-- The struct `generateCSVConfig`. -/
structure generateCSVConfig where
  header : String
  headerValues : List String
  dataFields : List String
  delimiter : String
  filename : String
deriving DecidableEq, Repr

/-- The cell loop of `generateCSV.Execute` (lines 132-139) over the header
values not yet read; `newRow` is the row built so far. -/
def generateCSV.cells (fmtV : GoFmtV) (recData : Record) :
    List String → List String → List String
  | [], newRow => newRow
  | h :: rest, newRow =>
    let got := recData.Get h
    let val := if !got.2 then Value.str "" else got.1
    generateCSV.cells fmtV recData rest (newRow ++ [sprintfV fmtV val])

/-- The record loop of `generateCSV.Execute` (lines 115-142): `out` is the rows
passed to `csvwriter.Write` so far. -/
def generateCSV.loop (fmtV : GoFmtV) (splitOpts : generateCSVConfig) :
    List Entry → List (List String) → Outcome (List String)
  | [], out => ⟨out, none⟩
  | rec :: rest, out =>
    match rec.GetAsRecord with
    | .error _ => ⟨out, some "Failed to read record as a map"⟩
    | .ok recData =>
      generateCSV.loop fmtV splitOpts rest
        (out ++ [generateCSV.cells fmtV recData splitOpts.headerValues []])

/-- `generateCSV.Execute` on a built configuration and the entries of the
default input port: the rows passed to `csvwriter.Write`, in order, for the one
file `filename` opened on the default output port.  The text the csv writer
makes of the rows is `generateCSV.fileText`. -/
def generateCSV.Execute (fmtV : GoFmtV) (splitOpts : generateCSVConfig) (input : List Entry) :
    Outcome (List String) :=
  if splitOpts.delimiter.utf8ByteSize > 1 then
    ⟨[], some "CSV delimiter can only be a single character"⟩
  else
    generateCSV.loop fmtV splitOpts input
      (if splitOpts.header = "true" then [splitOpts.headerValues] else [])

/-- The inside of a quoted field as `Writer.Write` emits it (without
`UseCRLF`): every double quote doubled, every other character as it is. -/
def quoteField : List Char → List Char
  | [] => []
  | c :: cs =>
    if c.toNat = 34 then Char.ofNat 34 :: Char.ofNat 34 :: quoteField cs
    else c :: quoteField cs

/-- A value of a configuration map (`map[string]interface{}` as decoded from
JSON): null, a boolean, a number (a float64), a string, a list, or a map
given by its keys and values. -/
inductive Config where
  | null
  | bool (b : Bool)
  | num (x : F64)
  | str (s : String)
  | arr (items : List Config)
  | obj (entries : List (String × Config))

namespace Config

/-- Go `m[key]` on a map: the value, nil when the key is absent. -/
def get (m : List (String × Config)) (key : String) : Config :=
  match m.lookup key with
  | some v => v
  | none => Config.null

/-- Go `v.(string)`: a run-time panic when `v` is not a string. -/
def asString : Config → Except String String
  | .str s => .ok s
  | _ => .error "interface conversion: interface is not string"

/-- Go `s, _ := v.(string)`: the empty string when `v` is not a string. -/
def asStringOrEmpty : Config → String
  | .str s => s
  | _ => ""

/-- Go `v.(bool)`: a run-time panic when `v` is not a boolean. -/
def asBool : Config → Except String Bool
  | .bool b => .ok b
  | _ => .error "interface conversion: interface is not bool"

/-- Go `v.([]interface{})`: a run-time panic when `v` is not a list. -/
def asArr : Config → Except String (List Config)
  | .arr items => .ok items
  | _ => .error "interface conversion: interface is not []interface"

/-- Go `v.(map[string]interface{})`: a run-time panic when `v` is not a map. -/
def asObj : Config → Except String (List (String × Config))
  | .obj entries => .ok entries
  | _ => .error "interface conversion: interface is not map[string]interface"

end Config

/-- The body of the column loop of `parseCSV.buildConfig` (lines 90-99): the
column spec built from one entry of `columns`.  No key is read into `index`,
which keeps the zero value of `parseCSVColumn{}`. -/
def parseCSV.buildColumn (entry : Config) : Except String parseCSVColumn := do
  let curRuleMap ← entry.asObj
  let columnName ← (Config.get curRuleMap "columnName").asString
  let datatype ← (Config.get curRuleMap "datatype").asString
  let format := (Config.get curRuleMap "format").asStringOrEmpty
  let fieldName ← (Config.get curRuleMap "fieldName").asString
  pure ⟨0, columnName, datatype, format, fieldName⟩

/-- The column loop of `parseCSV.buildConfig` (lines 89-100). -/
def parseCSV.buildColumns : List Config → Except String (List parseCSVColumn)
  | [] => .ok []
  | entry :: rest =>
    match parseCSV.buildColumn entry with
    | .error e => .error e
    | .ok newRule =>
      match parseCSV.buildColumns rest with
      | .error e => .error e
      | .ok cols => .ok (newRule :: cols)

/-- `parseCSV.buildConfig(config)`.  No key is read into
`ignoreUnmappedColumns`, which keeps the zero value of `parseCSVConfig{}`. -/
def parseCSV.buildConfig (config : List (String × Config)) : Except String parseCSVConfig := do
  let columns ← (Config.get config "columns").asArr
  let cols ← parseCSV.buildColumns columns
  let hasHeaderRow ← (Config.get config "hasHeaderRow").asBool
  let useHeaderColumnNamesAsFieldNames ←
    (Config.get config "useHeaderColumnNamesAsFieldNames").asBool
  let delimiter := (Config.get config "delimiter").asStringOrEmpty
  pure ⟨hasHeaderRow, useHeaderColumnNamesAsFieldNames, false, delimiter, cols⟩

/-! ## Float text: `fmt.Sprintf("%f", x)` and `fmt.Sprintf("%.0f", x)`

Go formats a float with a fixed number of decimal places from the exact
decimal expansion of its binary value, rounded to that many places, a tie
going to the even digit (`strconv.FormatFloat(x, 'f', prec, 64)`). -/

/-- Neither a NaN nor an infinity. -/
def F64.isFinite (x : F64) : Bool := decide (x.exp < 2047)

/-- The magnitude of a finite float64 as a ratio of natural numbers: the
significand times a power of two (a subnormal has no implicit leading bit). -/
def F64.ratio (x : F64) : Nat × Nat :=
  if x.exp = 0 then (x.man, 2 ^ 1074)
  else if 1075 ≤ x.exp then ((2 ^ 52 + x.man) * 2 ^ (x.exp - 1075), 1)
  else (2 ^ 52 + x.man, 2 ^ (1075 - x.exp))

/-- The natural number nearest to `num / den`, a tie going to the even one. -/
def roundHalfEven (num den : Nat) : Nat :=
  if den < 2 * (num % den) ∨ (2 * (num % den) = den ∧ (num / den) % 2 = 1) then num / den + 1
  else num / den

/-- The last `width` decimal digits of a natural number, most significant
first, with leading zeros. -/
def padDigits : Nat → Nat → List Char
  | 0, _ => []
  | width + 1, n => padDigits width (n / 10) ++ [digitChar (n % 10)]

/-- Go `strconv.FormatFloat(x, 'f', prec, 64)` as `fmt` prints it for the verbs
`%f` (`prec` 6) and `%.0f` (`prec` 0): `NaN`, `+Inf`, `-Inf`, or a minus sign
when the sign bit is set, the integer digits, and, when `prec` is not 0, a
point and `prec` digits. -/
def formatFixed (prec : Nat) (x : F64) : String :=
  if x.isNaN then "NaN"
  else if x.exp = 2047 then (if x.sign then "-Inf" else "+Inf")
  else
    let scaled := roundHalfEven (x.ratio.1 * 10 ^ prec) x.ratio.2
    String.mk ((if x.sign then [Char.ofNat 45] else []) ++ natDigits (scaled / 10 ^ prec) ++
      (if prec = 0 then [] else Char.ofNat 46 :: padDigits prec (scaled % 10 ^ prec)))

/-- A library whose `%f` and `%.0f` are Go's, the rest as in `lib`. -/
def GoLib.withFloatText (lib : GoLib) : GoLib :=
  ⟨formatFixed 6, formatFixed 0, lib.parseFloat, lib.regexpMatch, lib.timeParse⟩

/-! ## Notions of the specification the theorems compare the code with -/

/-- A text is numeric: an optional sign followed by one or more decimal
digits. -/
def isDecimalText (s : String) : Bool :=
  match s.data with
  | [] => false
  | c :: rest =>
    let ds : List Char := if c.toNat = 43 ∨ c.toNat = 45 then rest else c :: rest
    !ds.isEmpty && ds.all (fun d => decide (48 ≤ d.toNat ∧ d.toNat ≤ 57))

/-- The six comparison operators on integers: `n op m`, none for any other
operator text. -/
def intOp (op : String) (n m : Int) : Option Bool :=
  if op = "<" then some (decide (n < m))
  else if op = "<=" then some (decide (n ≤ m))
  else if op = "==" then some (decide (n = m))
  else if op = "!=" then some (decide (n ≠ m))
  else if op = ">" then some (decide (n > m))
  else if op = ">=" then some (decide (n ≥ m))
  else none

/-- The operators applied to two strings: the six comparisons in byte-wise
lexicographic order, and `regex`, which asks whether the pattern `b` matches
the text `a`; none for any other operator text. -/
def strOp (lib : GoLib) (op : String) (a b : String) : Option Bool :=
  if op = "<" then some (strLt a b)
  else if op = "<=" then some (!strLt b a)
  else if op = "==" then some (decide (a = b))
  else if op = "!=" then some (decide (a ≠ b))
  else if op = ">" then some (strLt b a)
  else if op = ">=" then some (!strLt a b)
  else if op = "regex" then some (lib.regexpMatch b a)
  else none

/-- The record with the single field `balance`, a float64 of value `n`. -/
def balanceRecord (n : Nat) : Record := ⟨[("balance", Value.float64 (F64.ofNat n))]⟩

/-- The rule `balance <= n` (a float64 literal) with the given output port. -/
def balanceAtMost (n : Nat) (port : String) : splitRule :=
  ⟨"balance", "<=", Value.float64 (F64.ofNat n), "literal", port⟩

/-- Scenario 2 of the specification: one rule, `balance <= 50.00` to port
`poor`, default port `ok`. -/
def scenario2Config : splitConfig := ⟨[balanceAtMost 50 "poor"], "ok"⟩

/-- Two rules that both match a balance of 40: `balance <= 50` to `poor`, then
`balance <= 100` to `mid`; default port `ok`. -/
def twoMatchConfig : splitConfig := ⟨[balanceAtMost 50 "poor", balanceAtMost 100 "mid"], "ok"⟩

/-- A parser for input without a header row, `ignoreUnmappedColumns` as given,
with one column spec, for position 0. -/
def positionalParser (ignoreUnmapped : Bool) : parseCSV :=
  ⟨⟨false, false, ignoreUnmapped, ",", [⟨0, "", "string", "", "first"⟩]⟩, []⟩

/-- The parser of scenario 1: a header row and the one column spec `age`, an
integer, to field `age`. -/
def scenario1Parser : parseCSV :=
  ⟨⟨true, false, false, "", [⟨0, "age", "integer", "", "age"⟩]⟩, []⟩

/-- Three registrations: `parseCSV`, `splitOnField`, and `parseCSV` again under
another name and with another constructor. -/
def exampleRegistrations : List (Function String) :=
  [⟨⟨"parseCSV", "first", "", "File", "sync", [], []⟩, fun _ => "instance of first"⟩,
   ⟨⟨"splitOnField", "split", "", "Data", "sync", [], []⟩, fun _ => "instance of split"⟩,
   ⟨⟨"parseCSV", "second", "", "File", "sync", [], []⟩, fun _ => "instance of second"⟩]

/-- The fixed-width parser of scenario 3: no header row and the one column
`code`, a string, the 3 bytes from offset 0. -/
def scenario3Parser : parseFixedLength := ⟨⟨false, [⟨0, 3, "string", "", "code"⟩]⟩⟩

/-- A fixed-width parser with one string column `code` of the given extent. -/
def codeParser (start length : Int) : parseFixedLength :=
  ⟨⟨false, [⟨start, length, "string", "", "code"⟩]⟩⟩

/-- A column entry of a delimited-parser configuration map: a string column
`name` to the field `name`, with the position `position` under the key
`index`. -/
def columnEntry (name : String) (position : Nat) : Config :=
  Config.obj [("index", Config.num (F64.ofNat position)), ("columnName", Config.str name),
    ("datatype", Config.str "string"), ("fieldName", Config.str name)]

/-- A configuration map of the delimited parser for input without header row,
with the columns `a` at position 0 and `b` at position 1 and
`ignoreUnmappedColumns` as given. -/
def positionalConfigMap (ignoreUnmapped : Bool) : List (String × Config) :=
  [("columns", Config.arr [columnEntry "a" 0, columnEntry "b" 1]),
   ("hasHeaderRow", Config.bool false),
   ("useHeaderColumnNamesAsFieldNames", Config.bool false),
   ("ignoreUnmappedColumns", Config.bool ignoreUnmapped),
   ("delimiter", Config.str ",")]

/-- A configuration map of the delimited parser for input with a header row,
with the one column `a` and `ignoreUnmappedColumns` set to true. -/
def ignoringConfigMap : List (String × Config) :=
  [("columns", Config.arr [columnEntry "a" 0]),
   ("hasHeaderRow", Config.bool true),
   ("useHeaderColumnNamesAsFieldNames", Config.bool false),
   ("ignoreUnmappedColumns", Config.bool true),
   ("delimiter", Config.str ",")]

/-- A `%v` formatter for the examples; they hold no float and no time. -/
def exampleFmtV : GoFmtV := ⟨fun _ => "", fun _ => "", fun _ => ""⟩

/-- The float64 1.5, bit pattern 0x3FF8000000000000. -/
def float1p5 : F64 := ⟨false, 1023, 2 ^ 51⟩

/-- The float64 2.5, bit pattern 0x4004000000000000. -/
def float2p5 : F64 := ⟨false, 1024, 2 ^ 50⟩

/-- The float64 3.5, bit pattern 0x400C000000000000. -/
def float3p5 : F64 := ⟨false, 1024, 3 * 2 ^ 50⟩

/-- The float64 nearest to 2.7, bit pattern 0x400599999999999A. -/
def float2p7 : F64 := ⟨false, 1024, 1576259869579674⟩

/-- The float64 nearest to 2.2, bit pattern 0x400199999999999A. -/
def float2p2 : F64 := ⟨false, 1024, 450359962737050⟩

/-- The float64 nearest to -0.4, bit pattern 0xBFD999999999999A. -/
def floatMinus0p4 : F64 := ⟨true, 1021, 2702159776422298⟩

/-- The float64 2^63, bit pattern 0x43E0000000000000. -/
def float2to63 : F64 := ⟨false, 1086, 0⟩

/-! ## Theorems: the native field router -/

theorem splitOnField.destPort_ok (lib : GoLib) (recVal : Record) (rules : List splitRule)
    (h : ∀ rule ∈ rules, ∃ b, splitOnField.matches lib recVal rule = .ok b) (dest : String) :
    ∃ p, splitOnField.destPort lib recVal rules dest = .ok p := by
  induction rules generalizing dest with
  | nil => exact ⟨dest, rfl⟩
  | cons r rs ih =>
    obtain ⟨b, hb⟩ := h r (List.mem_cons_self r rs)
    have hrs : ∀ rule ∈ rs, ∃ b, splitOnField.matches lib recVal rule = .ok b :=
      fun rule hr => h rule (List.mem_cons_of_mem r hr)
    simpa [splitOnField.destPort, hb] using ih hrs (if b then r.outputPort else dest)

theorem splitOnField.destPort_no_match (lib : GoLib) (recVal : Record) (rules : List splitRule)
    (h : ∀ rule ∈ rules, splitOnField.matches lib recVal rule = .ok false) (dest : String) :
    splitOnField.destPort lib recVal rules dest = .ok dest := by
  induction rules with
  | nil => rfl
  | cons r rs ih =>
    have hrs : ∀ rule ∈ rs, splitOnField.matches lib recVal rule = .ok false :=
      fun rule hr => h rule (List.mem_cons_of_mem r hr)
    simpa [splitOnField.destPort, h r (List.mem_cons_self r rs)] using ih hrs

theorem splitOnField.loop_records (lib : GoLib) (splitOpts : splitConfig) (recs : List Record)
    (h : ∀ rec ∈ recs, ∀ rule ∈ splitOpts.rules, ∃ b, splitOnField.matches lib rec rule = .ok b)
    (out : List (String × Record)) :
    ∃ ports : List String, ports.length = recs.length ∧
      splitOnField.loop lib splitOpts (recs.map Entry.record) out
        = ⟨out ++ ports.zip recs, none⟩ ∧
      ∀ p r, (p, r) ∈ ports.zip recs →
        splitOnField.destPort lib r splitOpts.rules splitOpts.defaultOutputPort = .ok p := by
  induction recs generalizing out with
  | nil => exact ⟨[], rfl, by simp [splitOnField.loop], by simp⟩
  | cons r rs ih =>
    obtain ⟨p, hp⟩ := splitOnField.destPort_ok lib r splitOpts.rules
      (h r (List.mem_cons_self r rs)) splitOpts.defaultOutputPort
    obtain ⟨ports, hlen, hrun, hall⟩ :=
      ih (fun rec hr => h rec (List.mem_cons_of_mem r hr)) (out ++ [(p, r)])
    refine ⟨p :: ports, by simp [hlen], ?_, ?_⟩
    · simp [splitOnField.loop, Entry.GetAsRecord, hp, hrun]
    · intro q x hx
      rcases List.mem_cons.mp hx with hx | hx
      · cases hx
        exact hp
      · exact hall q x hx

theorem splitOnField.loop_written (lib : GoLib) (splitOpts : splitConfig) (recs : List Record)
    (out : List (String × Record)) :
    ∃ ports : List String,
      (splitOnField.loop lib splitOpts (recs.map Entry.record) out).written
        = out ++ ports.zip recs ∧
      ports.length ≤ recs.length ∧
      ((splitOnField.loop lib splitOpts (recs.map Entry.record) out).fault = none →
        ports.length = recs.length) ∧
      ∀ p r, (p, r) ∈ ports.zip recs →
        splitOnField.destPort lib r splitOpts.rules splitOpts.defaultOutputPort = .ok p := by
  induction recs generalizing out with
  | nil => exact ⟨[], by simp [splitOnField.loop], by simp, by simp, by simp⟩
  | cons r rs ih =>
    cases hp : splitOnField.destPort lib r splitOpts.rules splitOpts.defaultOutputPort with
    | error e =>
      exact ⟨[], by simp [splitOnField.loop, Entry.GetAsRecord, hp], by simp,
        by simp [splitOnField.loop, Entry.GetAsRecord, hp], by simp⟩
    | ok p =>
      obtain ⟨ports, hw, hle, hlen, hall⟩ := ih (out ++ [(p, r)])
      refine ⟨p :: ports, ?_, by simpa using hle, ?_, ?_⟩
      · simpa [splitOnField.loop, Entry.GetAsRecord, hp] using hw
      · intro hf
        have := hlen (by simpa [splitOnField.loop, Entry.GetAsRecord, hp] using hf)
        simp [this]
      · intro q x hx
        rcases List.mem_cons.mp hx with hx | hx
        · cases hx
          exact hp
        · exact hall q x hx

/-- C1 (failing input): with the rules `balance <= 50` to `poor` and
`balance <= 100` to `mid`, the record with balance 40 matches the first rule,
whose port is `poor`, and `Execute` writes it to `mid`, the port of the later
rule that also matches. -/
theorem C1_splitOnField_later_match_overrides (lib : GoLib) :
    splitOnField.matches lib (balanceRecord 40) (balanceAtMost 50 "poor") = .ok true ∧
    splitOnField.matches lib (balanceRecord 40) (balanceAtMost 100 "mid") = .ok true ∧
    splitOnField.Execute lib twoMatchConfig [Entry.record (balanceRecord 40)]
      = ⟨[("mid", balanceRecord 40)], none⟩ :=
  ⟨rfl, rfl, rfl⟩

/-- C2: in every run of `Execute` the writes are the input records in input
order, each at most once and to one port, up to the record at which a rule
panicked, if one did; a record that no rule matches is written to
`defaultOutputPort`.  When every rule evaluates on every input record the run
ends without a fault and every input record is written exactly once.  In
scenario 2 (rule `balance <= 50.00` to `poor`, default `ok`) the record with
balance 60 goes to `ok` and the one with balance 40 to `poor`. -/
theorem C2_splitOnField_default_port_once :
    (∀ (lib : GoLib) (splitOpts : splitConfig) (recs : List Record),
      ∃ ports : List String,
        (splitOnField.Execute lib splitOpts (recs.map Entry.record)).written
          = ports.zip recs ∧
        ports.length ≤ recs.length ∧
        ((splitOnField.Execute lib splitOpts (recs.map Entry.record)).fault = none →
          ports.length = recs.length) ∧
        ∀ p r, (p, r) ∈ ports.zip recs →
          (∀ rule ∈ splitOpts.rules, splitOnField.matches lib r rule = .ok false) →
          p = splitOpts.defaultOutputPort) ∧
    (∀ (lib : GoLib) (splitOpts : splitConfig) (recs : List Record),
      (∀ rec ∈ recs, ∀ rule ∈ splitOpts.rules,
        ∃ b, splitOnField.matches lib rec rule = .ok b) →
      ∃ ports : List String, ports.length = recs.length ∧
        splitOnField.Execute lib splitOpts (recs.map Entry.record)
          = ⟨ports.zip recs, none⟩ ∧
        ∀ p r, (p, r) ∈ ports.zip recs →
          (∀ rule ∈ splitOpts.rules, splitOnField.matches lib r rule = .ok false) →
          p = splitOpts.defaultOutputPort) ∧
    (∀ lib : GoLib,
      splitOnField.Execute lib scenario2Config
          [Entry.record (balanceRecord 60), Entry.record (balanceRecord 40)]
        = ⟨[("ok", balanceRecord 60), ("poor", balanceRecord 40)], none⟩) := by
  refine ⟨?_, ?_, fun _ => rfl⟩
  · intro lib splitOpts recs
    obtain ⟨ports, hw, hle, hlen, hall⟩ := splitOnField.loop_written lib splitOpts recs []
    refine ⟨ports, by simpa [splitOnField.Execute] using hw, hle,
      by simpa [splitOnField.Execute] using hlen, ?_⟩
    intro p r hpr hno
    have h1 := hall p r hpr
    rw [splitOnField.destPort_no_match lib r splitOpts.rules hno] at h1
    exact (Except.ok.inj h1).symm
  · intro lib splitOpts recs h
    obtain ⟨ports, hlen, hrun, hall⟩ := splitOnField.loop_records lib splitOpts recs h []
    refine ⟨ports, hlen, by simpa [splitOnField.Execute] using hrun, ?_⟩
    intro p r hpr hno
    have h1 := hall p r hpr
    rw [splitOnField.destPort_no_match lib r splitOpts.rules hno] at h1
    exact (Except.ok.inj h1).symm

/-- C2 at a concrete input: scenario 2 with the record of balance 60, which the
rule does not match. -/
theorem C2_splitOnField_default_port_once_witness :
    (∀ lib : GoLib, ∀ rec ∈ [balanceRecord 60], ∀ rule ∈ scenario2Config.rules,
      ∃ b, splitOnField.matches lib rec rule = .ok b) ∧
    (∀ lib : GoLib, ∃ ports : List String, ports.length = [balanceRecord 60].length ∧
      splitOnField.Execute lib scenario2Config ([balanceRecord 60].map Entry.record)
        = ⟨ports.zip [balanceRecord 60], none⟩ ∧
      ∀ p r, (p, r) ∈ ports.zip [balanceRecord 60] →
        (∀ rule ∈ scenario2Config.rules, splitOnField.matches lib r rule = .ok false) →
        p = scenario2Config.defaultOutputPort) := by
  have hyp : ∀ lib : GoLib, ∀ rec ∈ [balanceRecord 60], ∀ rule ∈ scenario2Config.rules,
      ∃ b, splitOnField.matches lib rec rule = .ok b := by
    intro lib rec hrec rule hrule
    simp only [List.mem_singleton] at hrec
    simp only [scenario2Config, List.mem_singleton] at hrule
    subst hrec hrule
    exact ⟨false, rfl⟩
  exact ⟨hyp, fun lib =>
    C2_splitOnField_default_port_once.2.1 lib scenario2Config [balanceRecord 60] (hyp lib)⟩

/-! ## Theorems: the scripted routers -/

/-- C4 (failing input): two rules whose conditions are both true for the entry,
in both engines.  The record router writes to the port of the first rule, which
is what first-match dispatch gives; the file router writes the file to the port
of the second rule. -/
theorem C4_fileRouter_later_match_overrides (vmF : Otto fileInfo) (vmR : Otto Record)
    (c1 c2 p1 p2 dflt : String) (f : File) (rec : Record)
    (hrunF : vmF.run c1 = none ∧ vmF.run c2 = none)
    (hrunR : vmR.run c1 = none ∧ vmR.run c2 = none)
    (hF : vmF.call c1 ⟨f.filename⟩ = .ok true ∧ vmF.call c2 ⟨f.filename⟩ = .ok true)
    (hR : vmR.call c1 rec = .ok true ∧ vmR.call c2 rec = .ok true) :
    fileRouter.Execute vmF ⟨[⟨c1, p1⟩, ⟨c2, p2⟩], dflt⟩ [Entry.file f]
      = ⟨[(p2, f)], none⟩ ∧
    splitOnFieldJS.Execute vmR ⟨[⟨c1, p1⟩, ⟨c2, p2⟩], dflt⟩ [Entry.record rec]
      = ⟨[(p1, rec)], none⟩ ∧
    firstMatchPort [(true, p1), (true, p2)] dflt = p1 := by
  refine ⟨?_, ?_, rfl⟩
  · simp [fileRouter.Execute, Otto.compileAll, hrunF.1, hrunF.2, fileRouter.loop,
      Entry.GetAsFile, fileRouter.outputPort, hF.1, hF.2]
  · simp [splitOnFieldJS.Execute, Otto.compileAll, hrunR.1, hrunR.2, splitOnFieldJS.loop,
      Entry.GetAsRecord, splitOnFieldJS.rules, hR.1]

/-- C4 at a concrete input: the file `a.csv` under the rules
`data.Filename.length > 0` to `named` and `true` to `any`, default `ignored`,
in an engine where both conditions are true: the file goes to `any`, a record
under the same rules to `named`. -/
theorem C4_fileRouter_later_match_overrides_witness :
    fileRouter.Execute ⟨fun _ => none, fun _ _ => .ok true⟩
        ⟨[⟨"data.Filename.length > 0", "named"⟩, ⟨"true", "any"⟩], "ignored"⟩
        [Entry.file ⟨"a.csv", [97, 44, 98, 10]⟩]
      = ⟨[("any", ⟨"a.csv", [97, 44, 98, 10]⟩)], none⟩ ∧
    splitOnFieldJS.Execute ⟨fun _ => none, fun _ _ => .ok true⟩
        ⟨[⟨"data.Filename.length > 0", "named"⟩, ⟨"true", "any"⟩], "ignored"⟩
        [Entry.record ⟨[("Filename", Value.str "a.csv")]⟩]
      = ⟨[("named", ⟨[("Filename", Value.str "a.csv")]⟩)], none⟩ ∧
    firstMatchPort [(true, "named"), (true, "any")] "ignored" = "named" :=
  C4_fileRouter_later_match_overrides ⟨fun _ => none, fun _ _ => .ok true⟩
    ⟨fun _ => none, fun _ _ => .ok true⟩ "data.Filename.length > 0" "true" "named" "any"
    "ignored" ⟨"a.csv", [97, 44, 98, 10]⟩ ⟨[("Filename", Value.str "a.csv")]⟩
    ⟨rfl, rfl⟩ ⟨rfl, rfl⟩ ⟨rfl, rfl⟩ ⟨rfl, rfl⟩

/-! ## Theorems: the function registry -/

theorem FunctionProvider.registerAll_functions {φ : Type} (calls : List (Function φ))
    (bfp : FunctionProvider φ) :
    (bfp.registerAll calls).functions = bfp.functions ++ calls := by
  induction calls generalizing bfp with
  | nil => simp [FunctionProvider.registerAll]
  | cons c cs ih => simp [FunctionProvider.registerAll, FunctionProvider.RegisterFunction, ih]

theorem FunctionProvider.specLoop_first {φ : Type} (key : String) (pre : List (Function φ))
    (f : Function φ) (post : List (Function φ))
    (hpre : ∀ g ∈ pre, g.FunctionSpec.Key ≠ key) (hf : f.FunctionSpec.Key = key) (i : Nat) :
    FunctionProvider.specLoop key (pre ++ f :: post) i = ⟨some f.FunctionSpec, none, []⟩ := by
  induction pre generalizing i with
  | nil => simp [FunctionProvider.specLoop, hf]
  | cons g gs ih =>
    have hg := hpre g (List.mem_cons_self g gs)
    simpa [FunctionProvider.specLoop, hg] using
      ih (fun x hx => hpre x (List.mem_cons_of_mem g hx)) (i + 1)

theorem FunctionProvider.newLoop_first {φ : Type} (key : String) (pre : List (Function φ))
    (f : Function φ) (post : List (Function φ))
    (hpre : ∀ g ∈ pre, g.FunctionSpec.Key ≠ key) (hf : f.FunctionSpec.Key = key) (i : Nat) :
    FunctionProvider.newLoop key (pre ++ f :: post) i
      = ⟨some (f.NewFunction ()), none, [i + pre.length]⟩ := by
  induction pre generalizing i with
  | nil => simp [FunctionProvider.newLoop, hf]
  | cons g gs ih =>
    have hg := hpre g (List.mem_cons_self g gs)
    have h := ih (fun x hx => hpre x (List.mem_cons_of_mem g hx)) (i + 1)
    simp [FunctionProvider.newLoop, hg, h]
    omega

theorem FunctionProvider.specLoop_none {φ : Type} (key : String) (fs : List (Function φ))
    (h : ∀ g ∈ fs, g.FunctionSpec.Key ≠ key) (i : Nat) :
    FunctionProvider.specLoop key fs i = ⟨none, none, []⟩ := by
  induction fs generalizing i with
  | nil => rfl
  | cons g gs ih =>
    have hg := h g (List.mem_cons_self g gs)
    simpa [FunctionProvider.specLoop, hg] using
      ih (fun x hx => h x (List.mem_cons_of_mem g hx)) (i + 1)

theorem FunctionProvider.newLoop_none {φ : Type} (key : String) (fs : List (Function φ))
    (h : ∀ g ∈ fs, g.FunctionSpec.Key ≠ key) (i : Nat) :
    FunctionProvider.newLoop key fs i = ⟨none, none, []⟩ := by
  induction fs generalizing i with
  | nil => rfl
  | cons g gs ih =>
    have hg := h g (List.mem_cons_self g gs)
    simpa [FunctionProvider.newLoop, hg] using
      ih (fun x hx => h x (List.mem_cons_of_mem g hx)) (i + 1)

theorem exists_first_with_key {φ : Type} (key : String) (fs : List (Function φ))
    (h : ∃ f ∈ fs, f.FunctionSpec.Key = key) :
    ∃ pre f post, fs = pre ++ f :: post ∧ (∀ g ∈ pre, g.FunctionSpec.Key ≠ key) ∧
      f.FunctionSpec.Key = key := by
  induction fs with
  | nil => obtain ⟨f, hf, _⟩ := h; cases hf
  | cons g gs ih =>
    by_cases hg : g.FunctionSpec.Key = key
    · exact ⟨[], g, gs, rfl, by simp, hg⟩
    · obtain ⟨f, hf, hk⟩ := h
      rcases List.mem_cons.mp hf with hfg | hfg
      · exact absurd (hfg ▸ hk) hg
      · obtain ⟨pre, f1, post, heq, hpre, hk1⟩ := ih ⟨f, hfg, hk⟩
        refine ⟨g :: pre, f1, post, by simp [heq], ?_, hk1⟩
        intro x hx
        rcases List.mem_cons.mp hx with hx | hx
        · exact hx ▸ hg
        · exact hpre x hx

/-- C5: after any sequence `calls` of `RegisterFunction` calls on the empty
provider in which some entry has key `k`, the sequence splits at its earliest
entry `f` with key `k`, and then, and after any further registrations `more`,
`GetFunctionSpecByKey(k)` returns the spec of `f` and `NewFunction(k)` returns
the result of the constructor of `f` (the only constructor invoked), both with
a nil error. -/
theorem C5_registry_first_registered_wins {φ : Type} (calls : List (Function φ)) (k : String)
    (h : ∃ f ∈ calls, f.FunctionSpec.Key = k) :
    ∃ pre f post, calls = pre ++ f :: post ∧ (∀ g ∈ pre, g.FunctionSpec.Key ≠ k) ∧
      f.FunctionSpec.Key = k ∧
      ∀ more : List (Function φ),
        (((FunctionProvider.empty φ).registerAll calls).registerAll more).GetFunctionSpecByKey k
          = ⟨some f.FunctionSpec, none, []⟩ ∧
        (((FunctionProvider.empty φ).registerAll calls).registerAll more).NewFunction k
          = ⟨some (f.NewFunction ()), none, [pre.length]⟩ := by
  obtain ⟨pre, f, post, heq, hpre, hk⟩ := exists_first_with_key k calls h
  refine ⟨pre, f, post, heq, hpre, hk, ?_⟩
  intro more
  have hfs : (((FunctionProvider.empty φ).registerAll calls).registerAll more).functions
      = pre ++ f :: (post ++ more) := by
    simp [FunctionProvider.registerAll_functions, FunctionProvider.empty, heq]
  constructor
  · simp only [FunctionProvider.GetFunctionSpecByKey, hfs]
    exact FunctionProvider.specLoop_first k pre f (post ++ more) hpre hk 0
  · simp only [FunctionProvider.NewFunction, hfs]
    simpa using FunctionProvider.newLoop_first k pre f (post ++ more) hpre hk 0

/-- C6: in every provider, the empty one included, a key that no entry carries
makes `GetFunctionSpecByKey` and `NewFunction` return a nil value and a nil
error, and no constructor is invoked. -/
theorem C6_registry_unknown_key_not_found {φ : Type} (bfp : FunctionProvider φ) (k : String)
    (h : ∀ g ∈ bfp.functions, g.FunctionSpec.Key ≠ k) :
    bfp.GetFunctionSpecByKey k = ⟨none, none, []⟩ ∧ bfp.NewFunction k = ⟨none, none, []⟩ :=
  ⟨FunctionProvider.specLoop_none k bfp.functions h 0,
   FunctionProvider.newLoop_none k bfp.functions h 0⟩

/-! ## Theorems: integer text -/

theorem digitChar_toNat (d : Nat) (h : d < 10) : (digitChar d).toNat = 48 + d := by
  interval_cases d <;> rfl

theorem parseDigits_append (xs ys : List Char) (acc : Nat) :
    parseDigits (xs ++ ys) acc = (parseDigits xs acc).bind (parseDigits ys) := by
  induction xs generalizing acc with
  | nil => rfl
  | cons c cs ih =>
    by_cases hc : 48 ≤ c.toNat ∧ c.toNat ≤ 57
    · simp [parseDigits, hc, ih]
    · simp [parseDigits, hc]

theorem parseDigits_natDigitsFuel (fuel n : Nat) (h : n < fuel) :
    parseDigits (natDigitsFuel fuel n) 0 = some n := by
  induction fuel generalizing n with
  | zero => omega
  | succ fuel ih =>
    by_cases hn : n < 10
    · simp [natDigitsFuel, hn, parseDigits, digitChar_toNat n hn]
      omega
    · have hlt : n / 10 < fuel := by omega
      have hd := digitChar_toNat (n % 10) (Nat.mod_lt n (by decide))
      simp [natDigitsFuel, hn, parseDigits_append, ih (n / 10) hlt, parseDigits, hd]
      omega

theorem natDigitsFuel_head (fuel n : Nat) (h : n < fuel) :
    ∃ c cs, natDigitsFuel fuel n = c :: cs ∧ 48 ≤ c.toNat := by
  induction fuel generalizing n with
  | zero => omega
  | succ fuel ih =>
    by_cases hn : n < 10
    · exact ⟨digitChar n, [], by simp [natDigitsFuel, hn], by rw [digitChar_toNat n hn]; omega⟩
    · obtain ⟨c, cs, hcs, hc⟩ := ih (n / 10) (by omega)
      exact ⟨c, cs ++ [digitChar (n % 10)], by simp [natDigitsFuel, hn, hcs], hc⟩

/-- Reading back the text `%d` gives an integer of 64 bits yields the integer,
with no error. -/
theorem Atoi_sprintfD (n : Int) (hlo : -(2 : Int) ^ 63 ≤ n) (hhi : n < 2 ^ 63) :
    Atoi (sprintfD n) = (n, true) := by
  obtain ⟨c, cs, hcs, hc⟩ := natDigitsFuel_head (n.natAbs + 1) n.natAbs (by omega)
  have hparse := parseDigits_natDigitsFuel (n.natAbs + 1) n.natAbs (by omega)
  by_cases hneg : n < 0
  · have hdata : (sprintfD n).data = '-' :: natDigits n.natAbs := by simp [sprintfD, hneg]
    have h45 : ('-' : Char).toNat = 45 := rfl
    have hne : natDigits n.natAbs ≠ [] := by simp [natDigits, hcs]
    have hp : parseDigits (natDigits n.natAbs) 0 = some n.natAbs := hparse
    have hr : ¬ (2 ^ 63 < n.natAbs) := by omega
    have hr2 : ¬ (9223372036854775808 < n.natAbs) := by omega
    simp [Atoi, ParseInt, hdata, h45, hne, hp, hr2, abs_of_neg hneg]
  · have hdata : (sprintfD n).data = c :: cs := by simp [sprintfD, hneg, natDigits, hcs]
    have hp : parseDigits (c :: cs) 0 = some n.natAbs := by rw [← hcs]; exact hparse
    have h43 : c.toNat ≠ 43 := by omega
    have h45 : c.toNat ≠ 45 := by omega
    have hr : ¬ (2 ^ 63 ≤ n.natAbs) := by omega
    have hr2 : ¬ (9223372036854775808 ≤ n.natAbs) := by omega
    simp [Atoi, ParseInt, hdata, h43, h45, hp, hr2, abs_of_nonneg (not_lt.mp hneg)]

/-! ## Theorems: string and float order -/

theorem bytesLt_irrefl (a : List Char) : bytesLt a a = false := by
  induction a with
  | nil => rfl
  | cons c cs ih => simp [bytesLt, ih]

theorem bytesLt_asymm (a b : List Char) (h : bytesLt a b = true) : bytesLt b a = false := by
  induction a generalizing b with
  | nil => cases b <;> simp [bytesLt] at h ⊢
  | cons c cs ih =>
    cases b with
    | nil => simp [bytesLt] at h
    | cons d ds =>
      by_cases h1 : c.toNat < d.toNat
      · have h2 : ¬ d.toNat < c.toNat := by omega
        simp [bytesLt, h1, h2]
      · by_cases h2 : d.toNat < c.toNat
        · simp [bytesLt, h1, h2] at h
        · simp [bytesLt, h1, h2] at h ⊢
          exact ih ds h

theorem F64.lt_asymm (a b : F64) (h : F64.lt a b = true) : F64.lt b a = false := by
  simp only [F64.lt, Bool.and_eq_true, Bool.not_eq_true', decide_eq_true_eq] at h
  simp only [F64.lt, Bool.and_eq_false_imp, Bool.not_eq_true', decide_eq_false_iff_not]
  intro _ _
  omega

theorem F64.self_compare (a : F64) (h : a.isNaN = false) :
    F64.eq a a = true ∧ F64.le a a = true ∧ F64.ge a a = true ∧
    F64.lt a a = false ∧ F64.gt a a = false ∧ F64.ne a a = false := by
  simp [F64.eq, F64.le, F64.ge, F64.lt, F64.gt, F64.ne, h]

/-! ## Theorems: the comparison engine -/

/-- Two integer-family values of their Go types compare, in either order, as
`int` values: the text round trip of the right operand changes nothing. -/
theorem compare_integers (lib : GoLib) (x y : Value)
    (hx : x.family = some Value.Family.integer) (hy : y.family = some Value.Family.integer)
    (hwx : x.wf = true) (hwy : y.wf = true) :
    ∃ n m : Int, (∀ op, compare lib x op y = compareAsInts lib n op (Value.int m)) ∧
      (∀ op, compare lib y op x = compareAsInts lib m op (Value.int n)) := by
  cases x <;> simp [Value.family] at hx <;> cases y <;> simp [Value.family] at hy <;>
    simp only [Value.wf, Bool.and_eq_true, decide_eq_true_eq] at hwx hwy <;>
    rename_i n m <;>
    refine ⟨n, m, fun op => ?_, fun op => ?_⟩ <;>
    simp only [compare, compareAsInts, Atoi_sprintfD n (by omega) (by omega),
      Atoi_sprintfD m (by omega) (by omega)]

/-- Two floating-point-family values compare, in either order, as float64
values. -/
theorem compare_floats (lib : GoLib) (x y : Value)
    (hx : x.family = some Value.Family.float) (hy : y.family = some Value.Family.float) :
    ∃ a b : F64, (∀ op, compare lib x op y = compareAsFloats lib a op (Value.float64 b)) ∧
      (∀ op, compare lib y op x = compareAsFloats lib b op (Value.float64 a)) ∧
      x.isNaN = a.isNaN := by
  cases x <;> simp [Value.family] at hx <;> cases y <;> simp [Value.family] at hy <;>
    rename_i a b <;>
    exact ⟨a, b, fun op => rfl, fun op => rfl, rfl⟩

/-- C7 (counterexample): the float64 NaN is a value of a supported type, and
used as both operands it makes `==`, `<=` and `>=` false and `!=` true. -/
theorem C7_compare_nan_not_reflexive :
    (Value.float64 F64.nan).family = some Value.Family.float ∧
    (Value.float64 F64.nan).wf = true ∧
    (∀ lib : GoLib,
      compare lib (Value.float64 F64.nan) "==" (Value.float64 F64.nan) = .ok false) ∧
    (∀ lib : GoLib,
      compare lib (Value.float64 F64.nan) "<=" (Value.float64 F64.nan) = .ok false) ∧
    (∀ lib : GoLib,
      compare lib (Value.float64 F64.nan) ">=" (Value.float64 F64.nan) = .ok false) ∧
    (∀ lib : GoLib,
      compare lib (Value.float64 F64.nan) "!=" (Value.float64 F64.nan) = .ok true) :=
  ⟨rfl, rfl, fun _ => rfl, fun _ => rfl, fun _ => rfl, fun _ => rfl⟩

/-- C7 (amended): for every value `x` of a supported type (a string, an integer
of any width within its range, a float32 or float64) that is not a
floating-point NaN, comparing `x` with itself gives true for `==`, `<=` and
`>=` and false for `<`, `>` and `!=`. -/
theorem C7_compare_reflexive_except_nan (lib : GoLib) (x : Value)
    (hfam : x.family ≠ none) (hwf : x.wf = true) (hnan : x.isNaN = false) :
    compare lib x "==" x = .ok true ∧ compare lib x "<=" x = .ok true ∧
    compare lib x ">=" x = .ok true ∧ compare lib x "<" x = .ok false ∧
    compare lib x ">" x = .ok false ∧ compare lib x "!=" x = .ok false := by
  have ints : ∀ n : Int, -(2 : Int) ^ 63 ≤ n → n < 2 ^ 63 →
      (Atoi (sprintfD n)).1 = n := fun n h1 h2 => by rw [Atoi_sprintfD n h1 h2]
  cases x with
  | nil => simp [Value.family] at hfam
  | bool b => simp [Value.family] at hfam
  | time t => simp [Value.family] at hfam
  | str s =>
    have h := bytesLt_irrefl s.data
    simp [compare, compareAsStrings, strLt, h, bind, Except.bind, pure, Except.pure]
  | int n => simp [compare, compareAsInts, bind, Except.bind, pure, Except.pure]
  | int8 n =>
    simp only [Value.wf, Bool.and_eq_true, decide_eq_true_eq] at hwf
    simp [compare, compareAsInts, ints n (by omega) (by omega), bind, Except.bind, pure,
      Except.pure]
  | int16 n =>
    simp only [Value.wf, Bool.and_eq_true, decide_eq_true_eq] at hwf
    simp [compare, compareAsInts, ints n (by omega) (by omega), bind, Except.bind, pure,
      Except.pure]
  | int32 n =>
    simp only [Value.wf, Bool.and_eq_true, decide_eq_true_eq] at hwf
    simp [compare, compareAsInts, ints n (by omega) (by omega), bind, Except.bind, pure,
      Except.pure]
  | int64 n =>
    simp only [Value.wf, Bool.and_eq_true, decide_eq_true_eq] at hwf
    simp [compare, compareAsInts, ints n (by omega) (by omega), bind, Except.bind, pure,
      Except.pure]
  | float32 f =>
    have h := F64.self_compare f hnan
    simp [compare, compareAsFloats, h, bind, Except.bind, pure, Except.pure]
  | float64 f =>
    have h := F64.self_compare f hnan
    simp [compare, compareAsFloats, h, bind, Except.bind, pure, Except.pure]

/-- C7 (amended) at concrete inputs: the string `abc`, the int8 `-128`, the
float64 `50`. -/
theorem C7_compare_reflexive_except_nan_witness :
    (∀ lib : GoLib,
      compare lib (Value.str "abc") "==" (Value.str "abc") = .ok true ∧
      compare lib (Value.str "abc") "<=" (Value.str "abc") = .ok true ∧
      compare lib (Value.str "abc") ">=" (Value.str "abc") = .ok true ∧
      compare lib (Value.str "abc") "<" (Value.str "abc") = .ok false ∧
      compare lib (Value.str "abc") ">" (Value.str "abc") = .ok false ∧
      compare lib (Value.str "abc") "!=" (Value.str "abc") = .ok false) ∧
    (∀ lib : GoLib,
      compare lib (Value.int8 (-128)) "==" (Value.int8 (-128)) = .ok true ∧
      compare lib (Value.int8 (-128)) "<=" (Value.int8 (-128)) = .ok true ∧
      compare lib (Value.int8 (-128)) ">=" (Value.int8 (-128)) = .ok true ∧
      compare lib (Value.int8 (-128)) "<" (Value.int8 (-128)) = .ok false ∧
      compare lib (Value.int8 (-128)) ">" (Value.int8 (-128)) = .ok false ∧
      compare lib (Value.int8 (-128)) "!=" (Value.int8 (-128)) = .ok false) ∧
    (∀ lib : GoLib,
      compare lib (Value.float64 (F64.ofNat 50)) "==" (Value.float64 (F64.ofNat 50)) = .ok true ∧
      compare lib (Value.float64 (F64.ofNat 50)) "<=" (Value.float64 (F64.ofNat 50)) = .ok true ∧
      compare lib (Value.float64 (F64.ofNat 50)) ">=" (Value.float64 (F64.ofNat 50)) = .ok true ∧
      compare lib (Value.float64 (F64.ofNat 50)) "<" (Value.float64 (F64.ofNat 50)) = .ok false ∧
      compare lib (Value.float64 (F64.ofNat 50)) ">" (Value.float64 (F64.ofNat 50)) = .ok false ∧
      compare lib (Value.float64 (F64.ofNat 50)) "!=" (Value.float64 (F64.ofNat 50))
        = .ok false) :=
  ⟨fun lib => C7_compare_reflexive_except_nan lib (Value.str "abc") (by decide) rfl rfl,
   fun lib => C7_compare_reflexive_except_nan lib (Value.int8 (-128)) (by decide) rfl rfl,
   fun lib => C7_compare_reflexive_except_nan lib (Value.float64 (F64.ofNat 50)) (by decide)
     rfl rfl⟩

/-- C8 (counterexample): the string `10` and the integer 9 are each below the
other (as strings `10` sorts before `9`; as integers 9 is below 10), and the
string `9` and the integer 10 are each above the other. -/
theorem C8_compare_mixed_types_not_antisymmetric :
    (∀ lib : GoLib, compare lib (Value.str "10") "<" (Value.int 9) = .ok true) ∧
    (∀ lib : GoLib, compare lib (Value.int 9) "<" (Value.str "10") = .ok true) ∧
    (∀ lib : GoLib, compare lib (Value.str "9") ">" (Value.int 10) = .ok true) ∧
    (∀ lib : GoLib, compare lib (Value.int 10) ">" (Value.str "9") = .ok true) :=
  ⟨fun _ => rfl, fun _ => rfl, fun _ => rfl, fun _ => rfl⟩

/-- C8 (amended): for every pair of supported values `x` and `y` of the same
type family (both strings, both integers of any widths, or both floats), each
within the range of its type, `x < y` and `y < x` are never both true, and
`x > y` and `y > x` are never both true. -/
theorem C8_compare_antisymmetric_same_family (lib : GoLib) (x y : Value)
    (hfam : x.family = y.family) (hx : x.family ≠ none)
    (hwx : x.wf = true) (hwy : y.wf = true) :
    ¬ (compare lib x "<" y = .ok true ∧ compare lib y "<" x = .ok true) ∧
    ¬ (compare lib x ">" y = .ok true ∧ compare lib y ">" x = .ok true) := by
  cases hf : x.family with
  | none => exact absurd hf hx
  | some fam =>
    have hfy : y.family = some fam := by rw [← hfam, hf]
    cases fam with
    | string =>
      cases x <;> simp [Value.family] at hf
      cases y <;> simp [Value.family] at hfy
      rename_i s t
      constructor
      · rintro ⟨h1, h2⟩
        simp [compare, compareAsStrings, strLt, bind, Except.bind, pure, Except.pure] at h1 h2
        have := bytesLt_asymm s.data t.data h1
        simp [this] at h2
      · rintro ⟨h1, h2⟩
        simp [compare, compareAsStrings, strLt, bind, Except.bind, pure, Except.pure] at h1 h2
        have := bytesLt_asymm s.data t.data h2
        simp [this] at h1
    | integer =>
      obtain ⟨n, m, h1, h2⟩ := compare_integers lib x y hf hfy hwx hwy
      constructor
      · rintro ⟨e1, e2⟩
        rw [h1] at e1
        rw [h2] at e2
        simp [compareAsInts, bind, Except.bind, pure, Except.pure] at e1 e2
        omega
      · rintro ⟨e1, e2⟩
        rw [h1] at e1
        rw [h2] at e2
        simp [compareAsInts, bind, Except.bind, pure, Except.pure] at e1 e2
        omega
    | float =>
      obtain ⟨a, b, h1, h2, _⟩ := compare_floats lib x y hf hfy
      constructor
      · rintro ⟨e1, e2⟩
        rw [h1] at e1
        rw [h2] at e2
        simp [compareAsFloats, bind, Except.bind, pure, Except.pure] at e1 e2
        have := F64.lt_asymm a b e1
        simp [this] at e2
      · rintro ⟨e1, e2⟩
        rw [h1] at e1
        rw [h2] at e2
        simp [compareAsFloats, F64.gt, bind, Except.bind, pure, Except.pure] at e1 e2
        have := F64.lt_asymm a b e2
        simp [this] at e1

/-- C8 (amended) at concrete inputs: the int8 `5` with the int64 `7`, and the
strings `10` and `9`. -/
theorem C8_compare_antisymmetric_same_family_witness :
    (∀ lib : GoLib,
      ¬ (compare lib (Value.int8 5) "<" (Value.int64 7) = .ok true ∧
         compare lib (Value.int64 7) "<" (Value.int8 5) = .ok true) ∧
      ¬ (compare lib (Value.int8 5) ">" (Value.int64 7) = .ok true ∧
         compare lib (Value.int64 7) ">" (Value.int8 5) = .ok true)) ∧
    (∀ lib : GoLib,
      ¬ (compare lib (Value.str "10") "<" (Value.str "9") = .ok true ∧
         compare lib (Value.str "9") "<" (Value.str "10") = .ok true) ∧
      ¬ (compare lib (Value.str "10") ">" (Value.str "9") = .ok true ∧
         compare lib (Value.str "9") ">" (Value.str "10") = .ok true)) :=
  ⟨fun lib => C8_compare_antisymmetric_same_family lib (Value.int8 5) (Value.int64 7)
     rfl (by decide) rfl rfl,
   fun lib => C8_compare_antisymmetric_same_family lib (Value.str "10") (Value.str "9")
     rfl (by decide) rfl rfl⟩

/-! ## Theorems: the delimited parser -/

/-- C10 (failing inputs): on the rows of `age\n30\n`, header then one data
row, `parseFile` writes the one record with `age` 30 and ends normally at the
end of the input.  On the header alone (`age\n`), on the empty input, and on
the empty input of a parser without a header row, it panics with `EOF` having
written nothing. -/
theorem C10_parseFile_no_data_rows_panics (lib : GoLib) :
    parseCSV.parseFile lib scenario1Parser [.ok ["age"], .ok ["30"]]
      = ⟨[(DEFAULT_OUTPUT_PORT_NAME, ⟨[("age", Value.int64 30)]⟩)], none⟩ ∧
    parseCSV.parseFile lib scenario1Parser [.ok ["age"]] = ⟨[], some "EOF"⟩ ∧
    parseCSV.parseFile lib scenario1Parser [] = ⟨[], some "EOF"⟩ ∧
    parseCSV.parseFile lib (positionalParser false) [] = ⟨[], some "EOF"⟩ :=
  ⟨rfl, rfl, rfl, rfl⟩

/-! ## Theorems: the registry at concrete inputs -/

/-- C5 at a concrete input: the key `parseCSV`, registered twice. -/
theorem C5_registry_first_registered_wins_witness :
    (∃ f ∈ exampleRegistrations, f.FunctionSpec.Key = "parseCSV") ∧
    (∃ pre f post, exampleRegistrations = pre ++ f :: post ∧
      (∀ g ∈ pre, g.FunctionSpec.Key ≠ "parseCSV") ∧ f.FunctionSpec.Key = "parseCSV" ∧
      ∀ more : List (Function String),
        (((FunctionProvider.empty String).registerAll exampleRegistrations).registerAll
            more).GetFunctionSpecByKey "parseCSV" = ⟨some f.FunctionSpec, none, []⟩ ∧
        (((FunctionProvider.empty String).registerAll exampleRegistrations).registerAll
            more).NewFunction "parseCSV" = ⟨some (f.NewFunction ()), none, [pre.length]⟩) ∧
    ((FunctionProvider.empty String).registerAll exampleRegistrations).GetFunctionSpecByKey
        "parseCSV" = ⟨some ⟨"parseCSV", "first", "", "File", "sync", [], []⟩, none, []⟩ ∧
    ((FunctionProvider.empty String).registerAll exampleRegistrations).NewFunction "parseCSV"
      = ⟨some "instance of first", none, [0]⟩ := by
  have hyp : ∃ f ∈ exampleRegistrations, f.FunctionSpec.Key = "parseCSV" :=
    ⟨_, List.mem_cons_self _ _, rfl⟩
  exact ⟨hyp, C5_registry_first_registered_wins exampleRegistrations "parseCSV" hyp, rfl, rfl⟩

/-- C6 at concrete inputs: the key `unknown` in the empty provider and in the
provider after the three registrations. -/
theorem C6_registry_unknown_key_not_found_witness :
    ((FunctionProvider.empty String).GetFunctionSpecByKey "unknown" = ⟨none, none, []⟩ ∧
      (FunctionProvider.empty String).NewFunction "unknown" = ⟨none, none, []⟩) ∧
    (((FunctionProvider.empty String).registerAll exampleRegistrations).GetFunctionSpecByKey
        "unknown" = ⟨none, none, []⟩ ∧
      ((FunctionProvider.empty String).registerAll exampleRegistrations).NewFunction "unknown"
        = ⟨none, none, []⟩) :=
  ⟨C6_registry_unknown_key_not_found (FunctionProvider.empty String) "unknown"
     (by intro g hg; cases hg),
   C6_registry_unknown_key_not_found
     ((FunctionProvider.empty String).registerAll exampleRegistrations) "unknown"
     (by
       intro g hg
       simp only [FunctionProvider.registerAll, FunctionProvider.RegisterFunction,
         FunctionProvider.empty, exampleRegistrations, List.nil_append, List.cons_append,
         List.mem_cons, List.mem_singleton, List.not_mem_nil, or_false] at hg
       rcases hg with h | h | h <;> subst h <;> decide)⟩

/-! ## Theorems: what the code does where a claim does not hold -/

/-- What the rule loop of `splitOnField.Execute` computes: when the rules
before `r` evaluate, `r` matches and no rule after `r` matches, the port is that
of `r`, the last rule that matches. -/
theorem splitOnField.destPort_last_match (lib : GoLib) (recVal : Record)
    (pre : List splitRule) (r : splitRule) (post : List splitRule)
    (hpre : ∀ q ∈ pre, ∃ b, splitOnField.matches lib recVal q = .ok b)
    (hr : splitOnField.matches lib recVal r = .ok true)
    (hpost : ∀ q ∈ post, splitOnField.matches lib recVal q = .ok false) (dest : String) :
    splitOnField.destPort lib recVal (pre ++ r :: post) dest = .ok r.outputPort := by
  induction pre generalizing dest with
  | nil =>
    simpa [splitOnField.destPort, hr] using
      splitOnField.destPort_no_match lib recVal post hpost r.outputPort
  | cons q qs ih =>
    obtain ⟨b, hb⟩ := hpre q (List.mem_cons_self q qs)
    simpa [splitOnField.destPort, hb] using
      ih (fun x hx => hpre x (List.mem_cons_of_mem q hx)) (if b then q.outputPort else dest)

/-- The row loop of `parseFile` on rows that all parse: one record per row, in
row order, and a normal end at the end of the input. -/
theorem parseCSV.rowLoop_rows (lib : GoLib) (f : parseCSV) (rows : List (List String))
    (recs : List Record) (curRec : List String) (recObj : Record)
    (hcur : parseCSV.parseLine lib f curRec = .ok recObj)
    (hrows : List.Forall₂ (fun row rec => parseCSV.parseLine lib f row = .ok rec) rows recs)
    (out : List (String × Record)) :
    parseCSV.rowLoop lib f curRec (rows.map Except.ok) out
      = ⟨out ++ (recObj :: recs).map (fun rec => (DEFAULT_OUTPUT_PORT_NAME, rec)), none⟩ := by
  induction hrows generalizing curRec recObj out with
  | nil => simp [parseCSV.rowLoop, hcur]
  | cons hrow _ ih =>
    rw [List.map_cons, parseCSV.rowLoop, hcur]
    simp only []
    rw [ih _ _ hrow]
    simp

/-- On an input with at least one data row whose rows all parse, `parseFile`
writes one record per data row, in row order, the header row (when
`hasHeaderRow` is set) not among them, and ends normally at the end of the
input. -/
theorem parseCSV.parseFile_rows (lib : GoLib) (f : parseCSV) (header : List String)
    (row : List String) (rows : List (List String)) (rec : Record) (recs : List Record) :
    (f.config.hasHeaderRow = true →
      List.Forall₂ (fun r x => parseCSV.parseLine lib { f with headerNames := header } r = .ok x)
        (row :: rows) (rec :: recs) →
      parseCSV.parseFile lib f ((header :: row :: rows).map Except.ok)
        = ⟨(rec :: recs).map (fun x => (DEFAULT_OUTPUT_PORT_NAME, x)), none⟩) ∧
    (f.config.hasHeaderRow = false →
      List.Forall₂ (fun r x => parseCSV.parseLine lib f r = .ok x) (row :: rows) (rec :: recs) →
      parseCSV.parseFile lib f ((row :: rows).map Except.ok)
        = ⟨(rec :: recs).map (fun x => (DEFAULT_OUTPUT_PORT_NAME, x)), none⟩) := by
  constructor
  · intro hh hall
    cases hall with
    | cons h1 hrest =>
      have := parseCSV.rowLoop_rows lib { f with headerNames := header } rows recs row rec
        h1 hrest []
      simpa [parseCSV.parseFile, hh, csvRead, parseCSV.dataRows] using this
  · intro hh hall
    cases hall with
    | cons h1 hrest =>
      have := parseCSV.rowLoop_rows lib f rows recs row rec h1 hrest []
      simpa [parseCSV.parseFile, hh, csvRead, parseCSV.dataRows] using this

/-- Why C8 stops at pairs of one family, integer against float: in every
library where `%.0f` of negative infinity is not the text of an integer and
`-5` parses to the float64 -5, the integer -5 and negative infinity are each
below the other. -/
theorem compare_int_float_both_less (lib : GoLib)
    (hfmt : Atoi (lib.sprintf0F (F64.inf true)) = (0, false))
    (hparse : lib.parseFloat "-5" = (⟨true, 1025, 2 ^ 50⟩, true)) :
    compare lib (Value.int (-5)) "<" (Value.float64 (F64.inf true)) = .ok true ∧
    compare lib (Value.float64 (F64.inf true)) "<" (Value.int (-5)) = .ok true := by
  have hs : sprintfD (-5) = "-5" := by decide
  constructor
  · simp [compare, compareAsInts, hfmt, bind, Except.bind, pure, Except.pure]
  · simp only [compare, compareAsFloats, hs, hparse, bind, Except.bind, pure, Except.pure]
    rfl

/-- Why C8 stops at pairs of one family, string against float: in every library
where `%f` of 9 is `9.000000` and `10` parses to the float64 10, the string
`10` and the float64 9 are each below the other. -/
theorem compare_string_float_both_less (lib : GoLib)
    (hfmt : lib.sprintfF (F64.ofNat 9) = "9.000000")
    (hparse : lib.parseFloat "10" = (F64.ofNat 10, true)) :
    compare lib (Value.str "10") "<" (Value.float64 (F64.ofNat 9)) = .ok true ∧
    compare lib (Value.float64 (F64.ofNat 9)) "<" (Value.str "10") = .ok true := by
  constructor
  · simp only [compare, compareAsStrings, hfmt, bind, Except.bind, pure, Except.pure]
    rfl
  · simp only [compare, compareAsFloats, hparse, bind, Except.bind, pure, Except.pure]
    rfl

/-! ## Theorems: integer text, continued -/

theorem parseDigits_none_of_not_all (ds : List Char) (acc : Nat)
    (h : ds.all (fun d => decide (48 ≤ d.toNat ∧ d.toNat ≤ 57)) = false) :
    parseDigits ds acc = none := by
  induction ds generalizing acc with
  | nil => simp at h
  | cons c cs ih =>
    by_cases hc : 48 ≤ c.toNat ∧ c.toNat ≤ 57
    · have hcs : cs.all (fun d => decide (48 ≤ d.toNat ∧ d.toNat ≤ 57)) = false := by
        simpa [List.all_cons, hc] using h
      simp [parseDigits, hc, ih _ hcs]
    · simp [parseDigits, hc]

/-- A text that is not an optional sign followed by decimal digits is a syntax
error for `ParseInt`, which then returns 0. -/
theorem ParseInt_of_not_decimal (s : String) (h : isDecimalText s = false) :
    ParseInt s = (0, false) := by
  unfold ParseInt
  unfold isDecimalText at h
  cases hd : s.data with
  | nil => rfl
  | cons c rest =>
    rw [hd] at h
    simp only [] at h ⊢
    by_cases hds : (if c.toNat = 43 ∨ c.toNat = 45 then rest else c :: rest) = []
    · simp [hds]
    · have hall : (if c.toNat = 43 ∨ c.toNat = 45 then rest else c :: rest).all
          (fun d => decide (48 ≤ d.toNat ∧ d.toNat ≤ 57)) = false := by
        have hne : (if c.toNat = 43 ∨ c.toNat = 45 then rest else c :: rest).isEmpty = false := by
          cases hx : (if c.toNat = 43 ∨ c.toNat = 45 then rest else c :: rest) with
          | nil => exact absurd hx hds
          | cons _ _ => rfl
        rw [hne] at h
        simpa using h
      rw [if_neg hds, parseDigits_none_of_not_all _ 0 hall]

/-- A value `ParseInt` returns without error is within the 64-bit range. -/
theorem ParseInt_ok_range (s : String) (v : Int) (h : ParseInt s = (v, true)) :
    -(2 : Int) ^ 63 ≤ v ∧ v < 2 ^ 63 := by
  unfold ParseInt at h
  cases hd : s.data with
  | nil => rw [hd] at h; simp at h
  | cons c rest =>
    rw [hd] at h
    simp only [] at h
    generalize (if c.toNat = 43 ∨ c.toNat = 45 then rest else c :: rest) = ds at h
    by_cases hds : ds = []
    · simp [hds] at h
    · cases hp : parseDigits ds 0 with
      | none => simp [hds, hp] at h
      | some un =>
        simp only [hds, hp, if_false] at h
        by_cases hneg : c.toNat = 45
        · by_cases h2 : 9223372036854775808 < un
          · simp [hneg, h2] at h
          · simp [hneg, h2] at h
            omega
        · by_cases h1 : 9223372036854775808 ≤ un
          · simp [hneg, h1] at h
          · simp [hneg, h1] at h
            omega

/-! ## Theorems: conversion in the delimited parser -/

/-- C11: conversion of a cell `t` in `parseLine` under the column spec found
for it.  Datatype `string` stores `t` unchanged under `fieldName`.  Datatype
`integer` stores, as a 64-bit integer under `fieldName`, the value `ParseInt`
reads from `t`, which is within the 64-bit range, and which is `n` when `t` is
the decimal text of a 64-bit integer `n`; it fails with the conversion error
when `ParseInt` reports an error, as it does for every text that is not an
optional sign followed by decimal digits (the empty text, a non-digit, spaces
around the digits) and for digits out of the 64-bit range.  A datatype other
than `string`, `integer`, `decimal` and `date` fails. -/
theorem C11_parseCSV_cell_conversion (lib : GoLib) (f : parseCSV) (recIdx : Nat) (t : String)
    (rest : List String) (rec : Record) (colConfig : parseCSVColumn)
    (hres : f.resolve recIdx = .ok (some colConfig)) :
    (colConfig.datatype = "string" →
      parseCSV.parseLineFrom lib f recIdx (t :: rest) rec
        = parseCSV.parseLineFrom lib f (recIdx + 1) rest
            (rec.Set colConfig.fieldName (Value.str t))) ∧
    (colConfig.datatype = "integer" → ∀ v, ParseInt t = (v, true) →
      (-(2 : Int) ^ 63 ≤ v ∧ v < 2 ^ 63) ∧
      parseCSV.parseLineFrom lib f recIdx (t :: rest) rec
        = parseCSV.parseLineFrom lib f (recIdx + 1) rest
            (rec.Set colConfig.fieldName (Value.int64 v))) ∧
    (colConfig.datatype = "integer" → ∀ n : Int, -(2 : Int) ^ 63 ≤ n → n < 2 ^ 63 →
      t = sprintfD n →
      parseCSV.parseLineFrom lib f recIdx (t :: rest) rec
        = parseCSV.parseLineFrom lib f (recIdx + 1) rest
            (rec.Set colConfig.fieldName (Value.int64 n))) ∧
    (colConfig.datatype = "integer" → (ParseInt t).2 = false →
      parseCSV.parseLineFrom lib f recIdx (t :: rest) rec
        = .error "strconv.ParseInt: parsing failed") ∧
    (isDecimalText t = false → (ParseInt t).2 = false) ∧
    ((ParseInt "").2 = false ∧ (ParseInt "12a").2 = false ∧ (ParseInt " 12").2 = false ∧
      (ParseInt "12 ").2 = false ∧ (ParseInt "9223372036854775808").2 = false ∧
      (ParseInt "-9223372036854775809").2 = false) ∧
    (colConfig.datatype ≠ "string" → colConfig.datatype ≠ "integer" →
      colConfig.datatype ≠ "decimal" → colConfig.datatype ≠ "date" →
      parseCSV.parseLineFrom lib f recIdx (t :: rest) rec
        = .error ("Unsupported dataype " ++ colConfig.datatype ++ " for column " ++
            colConfig.fieldName)) := by
  have hint : colConfig.datatype = "integer" → ∀ v, ParseInt t = (v, true) →
      parseCSV.parseLineFrom lib f recIdx (t :: rest) rec
        = parseCSV.parseLineFrom lib f (recIdx + 1) rest
            (rec.Set colConfig.fieldName (Value.int64 v)) := by
    intro hd v hv
    simp [parseCSV.parseLineFrom, hres, parseCSV.convert, hd, hv]
  refine ⟨?_, ?_, ?_, ?_, ?_, ?_, ?_⟩
  · intro hd
    simp [parseCSV.parseLineFrom, hres, parseCSV.convert, hd]
  · intro hd v hv
    exact ⟨ParseInt_ok_range t v hv, hint hd v hv⟩
  · intro hd n hlo hhi ht
    exact hint hd n (by rw [ht]; exact Atoi_sprintfD n hlo hhi)
  · intro hd hv
    have hp : ParseInt t = ((ParseInt t).1, false) := by rw [← hv]
    rw [parseCSV.parseLineFrom, hres]
    simp only [parseCSV.convert, hd]
    rw [hp]
    rfl
  · intro hnd
    rw [ParseInt_of_not_decimal t hnd]
  · exact ⟨by decide, by decide, by decide, by decide, by decide, by decide⟩
  · intro h1 h2 h3 h4
    simp [parseCSV.parseLineFrom, hres, parseCSV.convert, h1, h2, h3, h4]

/-- C11 at concrete inputs: the parser of scenario 1 on the cells `30` and
`3x` of its integer column `age`, and a string column on the cell ` a b `. -/
theorem C11_parseCSV_cell_conversion_witness :
    (∀ lib : GoLib,
      parseCSV.parseLineFrom lib (parseCSV.mk scenario1Parser.config ["age"]) 0 ["30"] ⟨[]⟩
        = .ok ⟨[("age", Value.int64 30)]⟩) ∧
    (∀ lib : GoLib,
      parseCSV.parseLineFrom lib (parseCSV.mk scenario1Parser.config ["age"]) 0 ["3x"] ⟨[]⟩
        = .error "strconv.ParseInt: parsing failed") ∧
    (∀ lib : GoLib,
      parseCSV.parseLineFrom lib (positionalParser false) 0 [" a b "] ⟨[]⟩
        = .ok ⟨[("first", Value.str " a b ")]⟩) := by
  refine ⟨fun lib => ?_, fun lib => ?_, fun lib => ?_⟩
  · exact ((C11_parseCSV_cell_conversion lib (parseCSV.mk scenario1Parser.config ["age"]) 0
      "30" [] ⟨[]⟩ ⟨0, "age", "integer", "", "age"⟩ rfl).2.1 rfl 30 (by decide)).2
  · exact (C11_parseCSV_cell_conversion lib (parseCSV.mk scenario1Parser.config ["age"]) 0
      "3x" [] ⟨[]⟩ ⟨0, "age", "integer", "", "age"⟩ rfl).2.2.2.1 rfl (by decide)
  · exact (C11_parseCSV_cell_conversion lib (positionalParser false) 0
      " a b " [] ⟨[]⟩ ⟨0, "", "string", "", "first"⟩ rfl).1 rfl

/-! ## Theorems: failures and string operands of the comparison engine -/

theorem compareAsStrings_bad_op (lib : GoLib) (left op : String) (right : Value)
    (h : op ∉ ["<", "<=", "==", "!=", ">", ">="]) (hr : op ≠ "regex") :
    ∃ e, compareAsStrings lib left op right = .error e := by
  simp only [List.mem_cons, List.mem_singleton, List.not_mem_nil, or_false, not_or] at h
  obtain ⟨h1, h2, h3, h4, h5, h6⟩ := h
  cases right <;>
    simp [compareAsStrings, bind, Except.bind, pure, Except.pure, throw, throwThe,
      MonadExceptOf.throw, h1, h2, h3, h4, h5, h6, hr]

theorem compareAsInts_bad_op (lib : GoLib) (left : Int) (op : String) (right : Value)
    (h : op ∉ ["<", "<=", "==", "!=", ">", ">="]) :
    ∃ e, compareAsInts lib left op right = .error e := by
  simp only [List.mem_cons, List.mem_singleton, List.not_mem_nil, or_false, not_or] at h
  obtain ⟨h1, h2, h3, h4, h5, h6⟩ := h
  cases right <;>
    simp [compareAsInts, bind, Except.bind, pure, Except.pure, throw, throwThe,
      MonadExceptOf.throw, h1, h2, h3, h4, h5, h6]

theorem compareAsFloats_bad_op (lib : GoLib) (left : F64) (op : String) (right : Value)
    (h : op ∉ ["<", "<=", "==", "!=", ">", ">="]) :
    ∃ e, compareAsFloats lib left op right = .error e := by
  simp only [List.mem_cons, List.mem_singleton, List.not_mem_nil, or_false, not_or] at h
  obtain ⟨h1, h2, h3, h4, h5, h6⟩ := h
  cases right <;>
    simp [compareAsFloats, bind, Except.bind, pure, Except.pure, throw, throwThe,
      MonadExceptOf.throw, h1, h2, h3, h4, h5, h6]

/-- A rule either fails while its right operand is looked up, or is the
comparison of its two operands. -/
theorem splitOnField.matches_cases (lib : GoLib) (record : Record) (rule : splitRule) :
    (∃ e, splitOnField.matches lib record rule = .error e) ∨
    ∃ rightValue, splitOnField.matches lib record rule
      = compare lib (record.Get rule.field).1 rule.op rightValue := by
  by_cases hl : rule.valueType = "literal"
  · exact Or.inr ⟨rule.value, by
      simp [splitOnField.matches, hl, bind, Except.bind, pure, Except.pure]⟩
  · cases hv : rule.value with
    | str name =>
      exact Or.inr ⟨(record.Get name).1, by
        simp [splitOnField.matches, hl, hv, bind, Except.bind, pure, Except.pure]⟩
    | _ =>
      exact Or.inl ⟨"interface conversion: interface is not string", by
        simp [splitOnField.matches, hl, hv, bind, Except.bind, pure, Except.pure, throw,
          throwThe, MonadExceptOf.throw]⟩

/-- C17: evaluating a native rule fails, and returns no boolean, when the left
operand (the record's value of the rule's field, nil when the field is absent)
is not a string, an integer or a float; when the operator is none of `<`, `<=`,
`==`, `!=`, `>`, `>=` and `regex`; and when the operator is `regex` and the left
operand is not a string.  With a string as left operand and a string literal as
pattern, `regex` is accepted and gives the result of the regular expression
match. -/
theorem C17_matches_fails_on_unsupported (lib : GoLib) (record : Record) (rule : splitRule) :
    ((record.Get rule.field).1.family = none →
      ∃ e, splitOnField.matches lib record rule = .error e) ∧
    (rule.op ∉ ["<", "<=", "==", "!=", ">", ">="] → rule.op ≠ "regex" →
      ∃ e, splitOnField.matches lib record rule = .error e) ∧
    (rule.op = "regex" → (record.Get rule.field).1.family ≠ some Value.Family.string →
      ∃ e, splitOnField.matches lib record rule = .error e) ∧
    (rule.op = "regex" → rule.valueType = "literal" →
      ∀ s pattern, (record.Get rule.field).1 = Value.str s → rule.value = Value.str pattern →
      splitOnField.matches lib record rule = .ok (lib.regexpMatch pattern s)) := by
  refine ⟨?_, ?_, ?_, ?_⟩
  · intro hfam
    rcases splitOnField.matches_cases lib record rule with h | ⟨rv, h⟩
    · exact h
    · rw [h]
      cases hl : (record.Get rule.field).1 <;> simp [hl, Value.family] at hfam <;>
        exact ⟨_, rfl⟩
  · intro hop hre
    rcases splitOnField.matches_cases lib record rule with h | ⟨rv, h⟩
    · exact h
    · rw [h]
      cases hl : (record.Get rule.field).1 with
      | str s => exact compareAsStrings_bad_op lib s rule.op rv hop hre
      | int n => exact compareAsInts_bad_op lib n rule.op rv hop
      | int8 n => exact compareAsInts_bad_op lib n rule.op rv hop
      | int16 n => exact compareAsInts_bad_op lib n rule.op rv hop
      | int32 n => exact compareAsInts_bad_op lib n rule.op rv hop
      | int64 n => exact compareAsInts_bad_op lib n rule.op rv hop
      | float32 x => exact compareAsFloats_bad_op lib x rule.op rv hop
      | float64 x => exact compareAsFloats_bad_op lib x rule.op rv hop
      | nil => exact ⟨_, rfl⟩
      | bool b => exact ⟨_, rfl⟩
      | time t => exact ⟨_, rfl⟩
  · intro hop hfam
    have hbad : rule.op ∉ ["<", "<=", "==", "!=", ">", ">="] := by rw [hop]; decide
    rcases splitOnField.matches_cases lib record rule with h | ⟨rv, h⟩
    · exact h
    · rw [h]
      cases hl : (record.Get rule.field).1 with
      | str s => simp [hl, Value.family] at hfam
      | int n => exact compareAsInts_bad_op lib n rule.op rv hbad
      | int8 n => exact compareAsInts_bad_op lib n rule.op rv hbad
      | int16 n => exact compareAsInts_bad_op lib n rule.op rv hbad
      | int32 n => exact compareAsInts_bad_op lib n rule.op rv hbad
      | int64 n => exact compareAsInts_bad_op lib n rule.op rv hbad
      | float32 x => exact compareAsFloats_bad_op lib x rule.op rv hbad
      | float64 x => exact compareAsFloats_bad_op lib x rule.op rv hbad
      | nil => exact ⟨_, rfl⟩
      | bool b => exact ⟨_, rfl⟩
      | time t => exact ⟨_, rfl⟩
  · intro hop hlit s pattern hs hp
    simp [splitOnField.matches, hlit, hs, hp, hop, compare, compareAsStrings, bind,
      Except.bind, pure, Except.pure]

/-- C17 at concrete inputs: a boolean field, a time field, an absent field, the
operator `~`, and `regex` against an integer and against a float fail; `regex`
against a string is evaluated. -/
theorem C17_matches_fails_on_unsupported_witness :
    (∀ lib : GoLib, ∃ e, splitOnField.matches lib ⟨[("ok", Value.bool true)]⟩
      ⟨"ok", "==", Value.bool true, "literal", "p"⟩ = .error e) ∧
    (∀ lib : GoLib, ∃ e, splitOnField.matches lib ⟨[("at", Value.time 0)]⟩
      ⟨"at", "==", Value.str "x", "literal", "p"⟩ = .error e) ∧
    (∀ lib : GoLib, ∃ e, splitOnField.matches lib ⟨[]⟩
      ⟨"missing", "==", Value.str "x", "literal", "p"⟩ = .error e) ∧
    (∀ lib : GoLib, ∃ e, splitOnField.matches lib ⟨[("n", Value.int64 5)]⟩
      ⟨"n", "~", Value.int64 5, "literal", "p"⟩ = .error e) ∧
    (∀ lib : GoLib, ∃ e, splitOnField.matches lib ⟨[("n", Value.int64 5)]⟩
      ⟨"n", "regex", Value.str "5", "literal", "p"⟩ = .error e) ∧
    (∀ lib : GoLib, ∃ e, splitOnField.matches lib ⟨[("x", Value.float64 (F64.ofNat 5))]⟩
      ⟨"x", "regex", Value.str "5", "literal", "p"⟩ = .error e) ∧
    (∀ lib : GoLib, splitOnField.matches lib ⟨[("s", Value.str "abc")]⟩
      ⟨"s", "regex", Value.str "^a", "literal", "p"⟩ = .ok (lib.regexpMatch "^a" "abc")) :=
  ⟨fun lib => (C17_matches_fails_on_unsupported lib _ _).1 rfl,
   fun lib => (C17_matches_fails_on_unsupported lib _ _).1 rfl,
   fun lib => (C17_matches_fails_on_unsupported lib _ _).1 rfl,
   fun lib => (C17_matches_fails_on_unsupported lib _ _).2.1 (by decide) (by decide),
   fun lib => (C17_matches_fails_on_unsupported lib _ _).2.2.1 rfl (by decide),
   fun lib => (C17_matches_fails_on_unsupported lib _ _).2.2.1 rfl (by decide),
   fun lib => (C17_matches_fails_on_unsupported lib _ _).2.2.2 rfl rfl "abc" "^a" rfl rfl⟩

/-- An integer against a string is the integer against what `Atoi` makes of the
string, whatever the string. -/
theorem compareAsInts_string (lib : GoLib) (n : Int) (s op : String) (r : Bool)
    (h : intOp op n (Atoi s).1 = some r) :
    compareAsInts lib n op (Value.str s) = .ok r := by
  unfold intOp at h
  simp only [compareAsInts, bind, Except.bind, pure, Except.pure]
  split_ifs at h ⊢ <;> simp_all

/-- C20: with an integer `n` of any width as left operand and a string `s` as
right operand, each of the six operators returns a boolean, `n op m` for the
integer `m` that `Atoi` makes of `s`: the integer whose text `s` is when `s` is
the base-10 text of a 64-bit integer (as `ParseInt` reads it, and in particular
when `s` is the text `%d` prints for it), and 0 when `s` is not numeric. -/
theorem C20_integer_against_string (lib : GoLib) (n : Int) (s : String) (x : Value)
    (hx : x ∈ [Value.int n, Value.int8 n, Value.int16 n, Value.int32 n, Value.int64 n]) :
    (∀ op r, intOp op n (Atoi s).1 = some r → compare lib x op (Value.str s) = .ok r) ∧
    (∀ m, ParseInt s = (m, true) →
      ∀ op r, intOp op n m = some r → compare lib x op (Value.str s) = .ok r) ∧
    (∀ m : Int, -(2 : Int) ^ 63 ≤ m → m < 2 ^ 63 → s = sprintfD m →
      ∀ op r, intOp op n m = some r → compare lib x op (Value.str s) = .ok r) ∧
    (isDecimalText s = false →
      ∀ op r, intOp op n 0 = some r → compare lib x op (Value.str s) = .ok r) := by
  have hcmp : ∀ op, compare lib x op (Value.str s) = compareAsInts lib n op (Value.str s) := by
    intro op
    simp only [List.mem_cons, List.mem_singleton, List.not_mem_nil, or_false] at hx
    rcases hx with h | h | h | h | h <;> subst h <;> rfl
  refine ⟨?_, ?_, ?_, ?_⟩
  · intro op r h
    rw [hcmp]
    exact compareAsInts_string lib n s op r h
  · intro m hm op r h
    rw [hcmp]
    exact compareAsInts_string lib n s op r (by rw [Atoi, hm]; exact h)
  · intro m hlo hhi hs op r h
    rw [hcmp]
    exact compareAsInts_string lib n s op r (by rw [hs, Atoi_sprintfD m hlo hhi]; exact h)
  · intro hnd op r h
    rw [hcmp]
    exact compareAsInts_string lib n s op r (by rw [Atoi, ParseInt_of_not_decimal s hnd]; exact h)

/-- C20 at concrete inputs: the integer 0 equals the string `abc`, the integer
5 is above the string `abc`, and the int64 7 is below the string `10`. -/
theorem C20_integer_against_string_witness :
    (∀ lib : GoLib, compare lib (Value.int 0) "==" (Value.str "abc") = .ok true) ∧
    (∀ lib : GoLib, compare lib (Value.int 5) ">" (Value.str "abc") = .ok true) ∧
    (∀ lib : GoLib, compare lib (Value.int64 7) "<" (Value.str "10") = .ok true) :=
  ⟨fun lib => (C20_integer_against_string lib 0 "abc" (Value.int 0) (by simp)).2.2.2
      (by decide) "==" true (by decide),
   fun lib => (C20_integer_against_string lib 5 "abc" (Value.int 5) (by simp)).2.2.2
      (by decide) ">" true (by decide),
   fun lib => (C20_integer_against_string lib 7 "10" (Value.int64 7) (by simp)).2.1
      10 (by decide) "<" true (by decide)⟩

/-! ## Theorems: bytes and characters -/

theorem char_valid (c : Char) : c.toNat < 55296 ∨ (57343 < c.toNat ∧ c.toNat < 1114112) := by
  have := c.valid
  simpa [UInt32.isValidChar, Nat.isValidChar, Char.toNat] using this

theorem decodeRune_utf8Encode (c : Char) (rest : List Nat) :
    decodeRune (utf8Encode c ++ rest) = (c, (utf8Encode c).length) := by
  have hv := char_valid c
  have hc : Char.ofNat c.toNat = c := Char.ofNat_toNat c
  generalize hn : c.toNat = n at hv hc
  unfold utf8Encode
  rw [hn]
  by_cases h1 : n < 128
  · simp [h1, decodeRune, hc]
  · by_cases h2 : n < 2048
    · have e : (192 + n / 64) % 32 * 64 + (128 + n % 64) % 64 = n := by omega
      have a1 : ¬ (192 + n / 64 < 128) := by omega
      have a2 : ¬ (192 + n / 64 < 194 ∨ 245 ≤ 192 + n / 64) := by omega
      have a3 : ¬ (192 + n / 64 = 224) := by omega
      have a4 : ¬ (192 + n / 64 = 240) := by omega
      have a5 : ¬ (192 + n / 64 = 237) := by omega
      have a6 : ¬ (192 + n / 64 = 244) := by omega
      have a7 : ¬ (128 + n % 64 < 128 ∨ 191 < 128 + n % 64) := by omega
      have a8 : 192 + n / 64 < 224 := by omega
      simp only [h1, h2, if_true, if_false, List.cons_append, List.nil_append, decodeRune, a1, a2,
        a3, a4, a5, a6, a7, a8, e, hc, List.length_cons, List.length_nil]
    · by_cases h3 : n < 65536
      · have e : (224 + n / 4096) % 16 * 4096 + (128 + n / 64 % 64) % 64 * 64 +
            (128 + n % 64) % 64 = n := by omega
        have a1 : ¬ (224 + n / 4096 < 128) := by omega
        have a2 : ¬ (224 + n / 4096 < 194 ∨ 245 ≤ 224 + n / 4096) := by omega
        have a4 : ¬ (224 + n / 4096 = 240) := by omega
        have a6 : ¬ (224 + n / 4096 = 244) := by omega
        have a7 : ¬ (128 + n / 64 % 64 <
              (if 224 + n / 4096 = 224 then 160 else if 224 + n / 4096 = 240 then 144 else 128) ∨
            (if 224 + n / 4096 = 237 then 159 else if 224 + n / 4096 = 244 then 143 else 191) <
              128 + n / 64 % 64) := by
          split_ifs <;> omega
        have a8 : ¬ (224 + n / 4096 < 224) := by omega
        have a9 : ¬ (128 + n % 64 < 128 ∨ 191 < 128 + n % 64) := by omega
        have a10 : 224 + n / 4096 < 240 := by omega
        simp only [h1, h2, h3, if_true, if_false, List.cons_append, List.nil_append, decodeRune,
          a1, a2, a7, a8, a9, a10, e, hc, List.length_cons, List.length_nil]
      · have e : (240 + n / 262144) % 8 * 262144 + (128 + n / 4096 % 64) % 64 * 4096 +
            (128 + n / 64 % 64) % 64 * 64 + (128 + n % 64) % 64 = n := by omega
        have a1 : ¬ (240 + n / 262144 < 128) := by omega
        have a2 : ¬ (240 + n / 262144 < 194 ∨ 245 ≤ 240 + n / 262144) := by omega
        have a7 : ¬ (128 + n / 4096 % 64 <
              (if 240 + n / 262144 = 224 then 160
                else if 240 + n / 262144 = 240 then 144 else 128) ∨
            (if 240 + n / 262144 = 237 then 159
                else if 240 + n / 262144 = 244 then 143 else 191) <
              128 + n / 4096 % 64) := by
          split_ifs <;> omega
        have a8 : ¬ (240 + n / 262144 < 224) := by omega
        have a9 : ¬ (128 + n / 64 % 64 < 128 ∨ 191 < 128 + n / 64 % 64) := by omega
        have a10 : ¬ (240 + n / 262144 < 240) := by omega
        have a11 : ¬ (128 + n % 64 < 128 ∨ 191 < 128 + n % 64) := by omega
        simp only [h1, h2, h3, if_true, if_false, List.cons_append, List.nil_append, decodeRune,
          a1, a2, a7, a8, a9, a10, a11, e, hc, List.length_cons, List.length_nil]

theorem utf8Encode_length_pos (c : Char) : 0 < (utf8Encode c).length := by
  unfold utf8Encode
  split_ifs <;> simp

theorem stringBytes_append (a b : List Char) :
    stringBytes (a ++ b) = stringBytes a ++ stringBytes b := by
  induction a with
  | nil => rfl
  | cons c cs ih => simp [stringBytes, ih]

theorem length_le_stringBytes (l : List Char) : l.length ≤ (stringBytes l).length := by
  induction l with
  | nil => simp [stringBytes]
  | cons c cs ih =>
    have := utf8Encode_length_pos c
    simp only [stringBytes, List.length_cons, List.length_append]
    omega

theorem decodeRunes_stringBytes (l : List Char) (fuel : Nat) (h : l.length ≤ fuel) :
    decodeRunes fuel (stringBytes l) = l := by
  induction l generalizing fuel with
  | nil => cases fuel <;> rfl
  | cons c cs ih =>
    cases fuel with
    | zero => simp at h
    | succ fuel =>
      have hpos := utf8Encode_length_pos c
      have hdec := decodeRune_utf8Encode c (stringBytes cs)
      cases hb : utf8Encode c with
      | nil => rw [hb] at hpos; simp at hpos
      | cons b bs =>
        rw [hb] at hdec
        simp only [stringBytes, hb, List.cons_append, decodeRunes]
        simp only [List.cons_append] at hdec
        rw [hdec]
        simp only [List.cons.injEq, true_and]
        have : List.drop (b :: bs).length (b :: (bs ++ stringBytes cs)) = stringBytes cs := by
          rw [← List.cons_append]
          exact List.drop_left _ _
        rw [this]
        exact ih fuel (by simpa using h)

theorem stringOfBytes_stringBytes (l : List Char) : stringOfBytes (stringBytes l) = String.mk l := by
  unfold stringOfBytes
  rw [decodeRunes_stringBytes l _ (length_le_stringBytes l)]

theorem len_append (a b : String) : len (a ++ b) = len a + len b := by
  simp [len, stringBytes_append]

/-! ## Theorems: the fixed-width parser -/

theorem sliceString_out_of_bounds (line : String) (col : parseFixedLengthColumn)
    (hwf : col.wf = true)
    (h : col.start < 0 ∨ col.length < 0 ∨ col.start + col.length > (len line : Int)) :
    sliceString line col.start (addInt col.start col.length) = .error sliceBoundsPanic := by
  simp only [parseFixedLengthColumn.wf, Bool.and_eq_true, decide_eq_true_eq] at hwf
  obtain ⟨⟨⟨h1, h2⟩, h3⟩, h4⟩ := hwf
  have hbad : ¬ (0 ≤ col.start ∧ col.start ≤ addInt col.start col.length ∧
      addInt col.start col.length ≤ (len line : Int)) := by
    unfold addInt
    omega
  unfold sliceString
  rw [if_neg hbad]

theorem sliceString_in_bounds (line : String) (lo n : Int)
    (hlen : len line < 2 ^ 63)
    (h : 0 ≤ lo ∧ lo ≤ lo + n ∧ lo + n ≤ (len line : Int)) :
    sliceString line lo (addInt lo n)
      = .ok (stringOfBytes (((stringBytes line.data).drop lo.toNat).take n.toNat)) := by
  have hadd : addInt lo n = lo + n := by
    unfold addInt
    omega
  have hgood : 0 ≤ lo ∧ lo ≤ lo + n ∧ lo + n ≤ (len line : Int) := h
  have hn : (lo + n).toNat - lo.toNat = n.toNat := by omega
  rw [hadd]
  unfold sliceString
  rw [if_pos hgood, hn]

/-- A slice along character boundaries is the text between them. -/
theorem sliceString_between (pre mid post : String) (hlen : len (pre ++ mid ++ post) < 2 ^ 63) :
    sliceString (pre ++ mid ++ post) (len pre) (addInt (len pre) (len mid)) = .ok mid := by
  have hl : len (pre ++ mid ++ post) = len pre + len mid + len post := by
    rw [len_append, len_append]
  rw [sliceString_in_bounds (pre ++ mid ++ post) (len pre) (len mid) hlen (by omega)]
  have hd : (pre ++ mid ++ post).data = pre.data ++ (mid.data ++ post.data) := by
    simp [String.data_append]
  rw [hd, stringBytes_append, stringBytes_append]
  have h1 : ((len pre : Nat) : Int).toNat = (stringBytes pre.data).length := by simp [len]
  have h2 : ((len mid : Nat) : Int).toNat = (stringBytes mid.data).length := by simp [len]
  rw [h1, h2, List.drop_left, List.take_left, stringOfBytes_stringBytes]

theorem parseFixedLength.parseLineFrom_slice_fault (lib : GoLib) (line : String)
    (cols : List parseFixedLengthColumn) (rec : Record)
    (h : ∃ col ∈ cols, sliceString line col.start (addInt col.start col.length)
      = .error sliceBoundsPanic) :
    ∃ e, parseFixedLength.parseLineFrom lib line cols rec = .error e := by
  induction cols generalizing rec with
  | nil => obtain ⟨col, hc, _⟩ := h; cases hc
  | cons c cs ih =>
    cases hs : sliceString line c.start (addInt c.start c.length) with
    | error e => exact ⟨e, by simp [parseFixedLength.parseLineFrom, hs]⟩
    | ok valStr =>
      cases hv : parseFixedLength.convert lib c valStr with
      | error e => exact ⟨e, by simp [parseFixedLength.parseLineFrom, hs, hv]⟩
      | ok v =>
        obtain ⟨col, hc, hcol⟩ := h
        rcases List.mem_cons.mp hc with hc | hc
        · subst hc
          rw [hs] at hcol
          cases hcol
        · obtain ⟨e, he⟩ := ih (rec.Set c.fieldName v) ⟨col, hc, hcol⟩
          exact ⟨e, by simp [parseFixedLength.parseLineFrom, hs, hv, he]⟩

theorem parseFixedLength.parseLineFrom_fault_is_conversion (lib : GoLib) (line : String)
    (cols : List parseFixedLengthColumn) (rec : Record) (slice : parseFixedLengthColumn → String)
    (h : ∀ col ∈ cols, sliceString line col.start (addInt col.start col.length)
      = .ok (slice col))
    (e : String) (he : parseFixedLength.parseLineFrom lib line cols rec = .error e) :
    ∃ col ∈ cols, parseFixedLength.convert lib col (slice col) = .error e := by
  induction cols generalizing rec with
  | nil => simp [parseFixedLength.parseLineFrom] at he
  | cons c cs ih =>
    have hs := h c (List.mem_cons_self c cs)
    cases hv : parseFixedLength.convert lib c (slice c) with
    | error e1 =>
      simp [parseFixedLength.parseLineFrom, hs, hv] at he
      exact ⟨c, List.mem_cons_self c cs, by rw [hv, he]⟩
    | ok v =>
      simp only [parseFixedLength.parseLineFrom, hs, hv] at he
      obtain ⟨col, hc, hcol⟩ := ih (rec.Set c.fieldName v)
        (fun col hc => h col (List.mem_cons_of_mem c hc)) he
      exact ⟨col, List.mem_cons_of_mem c hc, hcol⟩

theorem parseFixedLength.parseLineFrom_ok (lib : GoLib) (line : String)
    (cols : List parseFixedLengthColumn) (rec : Record) (slice : parseFixedLengthColumn → String)
    (h : ∀ col ∈ cols, sliceString line col.start (addInt col.start col.length)
      = .ok (slice col))
    (hconv : ∀ col ∈ cols, ∃ v, parseFixedLength.convert lib col (slice col) = .ok v) :
    ∃ out, parseFixedLength.parseLineFrom lib line cols rec = .ok out := by
  induction cols generalizing rec with
  | nil => exact ⟨rec, rfl⟩
  | cons c cs ih =>
    have hs := h c (List.mem_cons_self c cs)
    obtain ⟨v, hv⟩ := hconv c (List.mem_cons_self c cs)
    obtain ⟨out, hout⟩ := ih (rec.Set c.fieldName v)
      (fun col hc => h col (List.mem_cons_of_mem c hc))
      (fun col hc => hconv col (List.mem_cons_of_mem c hc))
    exact ⟨out, by simp [parseFixedLength.parseLineFrom, hs, hv, hout]⟩

/-- C12: bounds in the fixed-width `parseLine`, for columns whose offsets are
values of Go's `int` and a line of a length Go allows; the length of the line
is its number of bytes.  When some column has a negative `start`, a negative
`length`, or `start + length` above the length of the line, `parseLine` faults.
When every column has `0 <= start <= start + length <= len(line)`, every slice
is taken without a fault (it is the `length` bytes from offset `start`), a
fault of `parseLine` is the conversion fault of some column on its slice, and
`parseLine` returns a record when every column's slice converts.  A slice along
character boundaries is the text between them. -/
theorem C12_fixed_width_bounds (lib : GoLib) (f : parseFixedLength) (line : String)
    (hwf : ∀ col ∈ f.config.columns, col.wf = true) (hlen : len line < 2 ^ 63) :
    ((∃ col ∈ f.config.columns, col.start < 0 ∨ col.length < 0 ∨
        col.start + col.length > (len line : Int)) →
      ∃ e, parseFixedLength.parseLine lib f line = .error e) ∧
    ((∀ col ∈ f.config.columns, 0 ≤ col.start ∧ col.start ≤ col.start + col.length ∧
        col.start + col.length ≤ (len line : Int)) →
      (∀ col ∈ f.config.columns,
        sliceString line col.start (addInt col.start col.length)
          = .ok (stringOfBytes
              (((stringBytes line.data).drop col.start.toNat).take col.length.toNat))) ∧
      (∀ e, parseFixedLength.parseLine lib f line = .error e →
        ∃ col ∈ f.config.columns, parseFixedLength.convert lib col
          (stringOfBytes (((stringBytes line.data).drop col.start.toNat).take col.length.toNat))
            = .error e) ∧
      ((∀ col ∈ f.config.columns, ∃ v, parseFixedLength.convert lib col
          (stringOfBytes (((stringBytes line.data).drop col.start.toNat).take col.length.toNat))
            = .ok v) →
        ∃ out, parseFixedLength.parseLine lib f line = .ok out)) ∧
    (∀ pre mid post : String, line = pre ++ mid ++ post →
      sliceString line (len pre) (addInt (len pre) (len mid)) = .ok mid) := by
  refine ⟨?_, ?_, ?_⟩
  · rintro ⟨col, hc, hbad⟩
    exact parseFixedLength.parseLineFrom_slice_fault lib line f.config.columns ⟨[]⟩
      ⟨col, hc, sliceString_out_of_bounds line col (hwf col hc) hbad⟩
  · intro hin
    have hs : ∀ col ∈ f.config.columns,
        sliceString line col.start (addInt col.start col.length)
          = .ok (stringOfBytes
              (((stringBytes line.data).drop col.start.toNat).take col.length.toNat)) :=
      fun col hc => sliceString_in_bounds line col.start col.length hlen (hin col hc)
    exact ⟨hs,
      fun e he => parseFixedLength.parseLineFrom_fault_is_conversion lib line f.config.columns
        ⟨[]⟩ _ hs e he,
      fun hconv => parseFixedLength.parseLineFrom_ok lib line f.config.columns ⟨[]⟩ _ hs hconv⟩
  · intro pre mid post hline
    subst hline
    exact sliceString_between pre mid post hlen

/-- C12 at concrete inputs: the column of scenario 3 (offsets 0 to 3) faults
on the line `AB` and on the empty line, and a column of negative start faults;
on the line `ABC  rest` the slice is taken and `parseLine` returns a record.
On the line `éa`, of two characters and three bytes, the same column is in
bounds and its slice is the whole line. -/
theorem C12_fixed_width_bounds_witness :
    (∀ lib : GoLib, ∃ e, parseFixedLength.parseLine lib scenario3Parser "AB" = .error e) ∧
    (∀ lib : GoLib, ∃ e, parseFixedLength.parseLine lib scenario3Parser "" = .error e) ∧
    (∀ lib : GoLib, ∃ e,
      parseFixedLength.parseLine lib (codeParser (-1) 2) "ABC  rest" = .error e) ∧
    (∀ lib : GoLib, ∃ out,
      parseFixedLength.parseLine lib scenario3Parser "ABC  rest" = .ok out) ∧
    (∀ lib : GoLib, ∃ out,
      parseFixedLength.parseLine lib scenario3Parser "éa" = .ok out) ∧
    sliceString "éa" 0 (addInt 0 3) = .ok "éa" := by
  have wf3 : ∀ col ∈ scenario3Parser.config.columns, col.wf = true := by
    intro col hc
    simp only [scenario3Parser, List.mem_singleton] at hc
    subst hc
    decide
  refine ⟨fun lib => ?_, fun lib => ?_, fun lib => ?_, fun lib => ?_, fun lib => ?_, ?_⟩
  · exact (C12_fixed_width_bounds lib scenario3Parser "AB" wf3 (by decide)).1
      ⟨_, List.mem_cons_self _ _, by decide⟩
  · exact (C12_fixed_width_bounds lib scenario3Parser "" wf3 (by decide)).1
      ⟨_, List.mem_cons_self _ _, by decide⟩
  · exact (C12_fixed_width_bounds lib (codeParser (-1) 2) "ABC  rest"
      (by
        intro col hc
        simp only [codeParser, List.mem_singleton] at hc
        subst hc
        decide) (by decide)).1 ⟨_, List.mem_cons_self _ _, by decide⟩
  · refine ((C12_fixed_width_bounds lib scenario3Parser "ABC  rest" wf3 (by decide)).2.1
      ?_).2.2 ?_
    · intro col hc
      simp only [scenario3Parser, List.mem_singleton] at hc
      subst hc
      decide
    · intro col hc
      simp only [scenario3Parser, List.mem_singleton] at hc
      subst hc
      exact ⟨_, rfl⟩
  · refine ((C12_fixed_width_bounds lib scenario3Parser "éa" wf3 (by decide)).2.1
      ?_).2.2 ?_
    · intro col hc
      simp only [scenario3Parser, List.mem_singleton] at hc
      subst hc
      decide
    · intro col hc
      simp only [scenario3Parser, List.mem_singleton] at hc
      subst hc
      exact ⟨_, rfl⟩
  · exact (C12_fixed_width_bounds ⟨fun _ => "", fun _ => "", fun _ => (F64.ofNat 0, false),
      fun _ _ => false, fun _ _ => none⟩ scenario3Parser "éa" wf3 (by decide)).2.2
      "" "éa" "" rfl

/-- Trimming a trimmed text changes nothing. -/
theorem TrimSpace_idem (s : String) : TrimSpace (TrimSpace s) = TrimSpace s := by
  have key : ∀ l : List Char,
      List.dropWhile isSpace (List.rdropWhile isSpace (List.dropWhile isSpace l))
        = List.rdropWhile isSpace (List.dropWhile isSpace l) := by
    intro l
    rw [List.dropWhile_eq_self_iff]
    intro hl
    obtain ⟨t, ht⟩ := List.rdropWhile_prefix isSpace (l := List.dropWhile isSpace l)
    have hself : List.dropWhile isSpace (List.dropWhile isSpace l) = List.dropWhile isSpace l :=
      List.dropWhile_idempotent isSpace l
    rw [List.dropWhile_eq_self_iff] at hself
    have hpos : 0 < (List.dropWhile isSpace l).length := by
      rw [← ht, List.length_append]
      omega
    have h0 := hself hpos
    have heq : (List.dropWhile isSpace l).get ⟨0, hpos⟩
        = (List.rdropWhile isSpace (List.dropWhile isSpace l)).get ⟨0, hl⟩ := by
      simp only [List.get_eq_getElem]
      have : (List.dropWhile isSpace l)[0]? =
          (List.rdropWhile isSpace (List.dropWhile isSpace l) ++ t)[0]? := by rw [ht]
      rw [List.getElem?_append_left hl] at this
      rw [List.getElem?_eq_getElem hpos, List.getElem?_eq_getElem hl] at this
      exact Option.some.inj this
    rw [← heq]
    exact h0
  have h2 : ∀ l : List Char,
      List.rdropWhile isSpace (List.rdropWhile isSpace l) = List.rdropWhile isSpace l :=
    fun l => List.rdropWhile_idempotent isSpace l
  show String.mk (List.rdropWhile isSpace (List.dropWhile isSpace
      (List.rdropWhile isSpace (List.dropWhile isSpace s.data))))
    = String.mk (List.rdropWhile isSpace (List.dropWhile isSpace s.data))
  rw [key, h2]

/-- The fixed-width conversion of a slice is the delimited parser's conversion
of the trimmed slice, under a column spec of the same datatype, format and
field name. -/
theorem parseFixedLength.convert_eq_csv (lib : GoLib) (col : parseFixedLengthColumn)
    (c : parseCSVColumn) (hd : c.datatype = col.datatype) (hf : c.format = col.format)
    (hn : c.fieldName = col.fieldName) (s : String) :
    parseFixedLength.convert lib col s = parseCSV.convert lib c (TrimSpace s) := by
  simp only [parseFixedLength.convert, parseCSV.convert, hd, hf, hn, TrimSpace_idem]

/-- C13 (counterexample): the string column of positions 0 to 5 on the line
`ABC  rest`.  The slice is `ABC` followed by two spaces; the delimited parser's
conversion of the slice itself keeps the spaces, the fixed-width parser stores
`ABC`. -/
theorem C13_fixed_width_string_is_trimmed :
    sliceString "ABC  rest" 0 (addInt 0 5) = .ok "ABC  " ∧
    (∀ lib : GoLib,
      parseCSV.convert lib ⟨0, "", "string", "", "code"⟩ "ABC  " = .ok (Value.str "ABC  ")) ∧
    (∀ lib : GoLib,
      parseFixedLength.convert lib ⟨0, 5, "string", "", "code"⟩ "ABC  "
        = .ok (Value.str "ABC")) ∧
    (∀ lib : GoLib,
      parseFixedLength.parseLine lib (codeParser 0 5) "ABC  rest"
        = .ok ⟨[("code", Value.str "ABC")]⟩) ∧
    Value.str "ABC" ≠ Value.str "ABC  " :=
  ⟨rfl, fun _ => rfl, fun _ => rfl, fun _ => rfl, by decide⟩

/-- C13 (amended): for a column whose slice `s` of the line is in bounds, the
value the fixed-width parser stores under the column's field name, or its
failure, is the delimited parser's conversion of `s` trimmed of surrounding
whitespace, for every datatype: a string is stored trimmed, and integer,
decimal and date are converted from the trimmed slice. -/
theorem C13_fixed_width_converts_trimmed_slice (lib : GoLib) (line : String)
    (col : parseFixedLengthColumn) (rest : List parseFixedLengthColumn) (rec : Record)
    (c : parseCSVColumn) (s : String)
    (hd : c.datatype = col.datatype) (hf : c.format = col.format)
    (hn : c.fieldName = col.fieldName)
    (hs : sliceString line col.start (addInt col.start col.length) = .ok s) :
    parseFixedLength.parseLineFrom lib line (col :: rest) rec
      = (parseCSV.convert lib c (TrimSpace s)).bind (fun v =>
          parseFixedLength.parseLineFrom lib line rest (rec.Set col.fieldName v)) ∧
    (col.datatype = "string" →
      parseFixedLength.parseLineFrom lib line (col :: rest) rec
        = parseFixedLength.parseLineFrom lib line rest
            (rec.Set col.fieldName (Value.str (TrimSpace s)))) := by
  have hconv := parseFixedLength.convert_eq_csv lib col c hd hf hn s
  constructor
  · rw [parseFixedLength.parseLineFrom, hs]
    simp only []
    rw [hconv]
    cases parseCSV.convert lib c (TrimSpace s) <;> rfl
  · intro hstr
    rw [parseFixedLength.parseLineFrom, hs]
    simp [parseFixedLength.convert, hstr]

/-- C13 (amended) at concrete inputs: scenario 3, the column `code` of
positions 0 to 3 on the line `ABC  rest`, gives the record with `code` equal to
`ABC`; so does the column of positions 0 to 5. -/
theorem C13_fixed_width_converts_trimmed_slice_witness :
    (∀ lib : GoLib,
      parseFixedLength.parseLine lib scenario3Parser "ABC  rest"
        = .ok ⟨[("code", Value.str "ABC")]⟩) ∧
    (∀ lib : GoLib,
      parseFixedLength.parseLine lib (codeParser 0 5) "ABC  rest"
        = .ok ⟨[("code", Value.str "ABC")]⟩) :=
  ⟨fun lib => ((C13_fixed_width_converts_trimmed_slice lib "ABC  rest"
      ⟨0, 3, "string", "", "code"⟩ [] ⟨[]⟩ ⟨0, "", "string", "", "code"⟩ "ABC" rfl rfl rfl
      rfl).2 rfl).trans rfl,
   fun lib => ((C13_fixed_width_converts_trimmed_slice lib "ABC  rest"
      ⟨0, 5, "string", "", "code"⟩ [] ⟨[]⟩ ⟨0, "", "string", "", "code"⟩ "ABC  " rfl rfl rfl
      rfl).2 rfl).trans rfl⟩

theorem generateCSV.cells_eq (fmtV : GoFmtV) (recData : Record) (hs newRow : List String) :
    generateCSV.cells fmtV recData hs newRow
      = newRow ++ hs.map (fun h =>
          if (recData.Get h).2 then sprintfV fmtV (recData.Get h).1 else "") := by
  induction hs generalizing newRow with
  | nil => simp [generateCSV.cells]
  | cons h rest ih =>
    rw [generateCSV.cells, ih]
    cases hg : (recData.Get h).2 <;> simp [hg, sprintfV]

theorem generateCSV.loop_rows (fmtV : GoFmtV) (splitOpts : generateCSVConfig)
    (recs : List Record) (out : List (List String)) :
    generateCSV.loop fmtV splitOpts (recs.map Entry.record) out
      = ⟨out ++ recs.map (fun rec => splitOpts.headerValues.map (fun h =>
          if (rec.Get h).2 then sprintfV fmtV (rec.Get h).1 else "")), none⟩ := by
  induction recs generalizing out with
  | nil => simp [generateCSV.loop]
  | cons r rs ih =>
    simp [generateCSV.loop, Entry.GetAsRecord, ih, generateCSV.cells_eq]

/-- C15: with a delimiter of at most one byte, `generateCSV.Execute` passes to
the csv writer the field-name list as a first row exactly when the header
option is the text `true`, and then one row per input record, in input order:
the row of a record has one cell per configured field name, in list order, the
cell of field name `h` being the `%v` text of the record's field `h`, or the
empty string when the record has no field `h`. -/
theorem C15_generateCSV_rows (fmtV : GoFmtV) (splitOpts : generateCSVConfig)
    (recs : List Record) (hdelim : splitOpts.delimiter.utf8ByteSize ≤ 1) :
    generateCSV.Execute fmtV splitOpts (recs.map Entry.record)
      = ⟨(if splitOpts.header = "true" then [splitOpts.headerValues] else []) ++
          recs.map (fun rec => splitOpts.headerValues.map (fun h =>
            if (rec.Get h).2 then sprintfV fmtV (rec.Get h).1 else "")), none⟩ ∧
    (∀ rec ∈ recs,
      (generateCSV.cells fmtV rec splitOpts.headerValues []).length
        = splitOpts.headerValues.length ∧
      ∀ (i : Nat) (h : String), splitOpts.headerValues[i]? = some h →
        (generateCSV.cells fmtV rec splitOpts.headerValues [])[i]?
          = some (if (rec.Get h).2 then sprintfV fmtV (rec.Get h).1 else "")) := by
  constructor
  · have hd : ¬ splitOpts.delimiter.utf8ByteSize > 1 := by omega
    simp only [generateCSV.Execute, hd, if_false]
    exact generateCSV.loop_rows fmtV splitOpts recs _
  · intro rec _
    rw [generateCSV.cells_eq]
    refine ⟨by simp, ?_⟩
    intro i h hi
    simp [List.getElem?_map, hi]

/-- C15 at a concrete input: field names `a`, `b`, the header option `true`, and
the records with `b` equal to 5 only and with `a` equal to `x` and `b` equal to
-2; and the same with the header option `false`. -/
theorem C15_generateCSV_rows_witness :
    generateCSV.Execute exampleFmtV ⟨"true", ["a", "b"], [], ",", "out.csv"⟩
        [Entry.record ⟨[("b", Value.int64 5)]⟩,
         Entry.record ⟨[("a", Value.str "x"), ("b", Value.int64 (-2))]⟩]
      = ⟨[["a", "b"], ["", "5"], ["x", "-2"]], none⟩ ∧
    generateCSV.Execute exampleFmtV ⟨"false", ["a", "b"], [], ",", "out.csv"⟩
        [Entry.record ⟨[("b", Value.int64 5)]⟩]
      = ⟨[["", "5"]], none⟩ :=
  ⟨((C15_generateCSV_rows exampleFmtV ⟨"true", ["a", "b"], [], ",", "out.csv"⟩
      [⟨[("b", Value.int64 5)]⟩, ⟨[("a", Value.str "x"), ("b", Value.int64 (-2))]⟩]
      (by decide)).1).trans rfl,
   ((C15_generateCSV_rows exampleFmtV ⟨"false", ["a", "b"], [], ",", "out.csv"⟩
      [⟨[("b", Value.int64 5)]⟩] (by decide)).1).trans rfl⟩

/-! ## Theorems: the csv text between writer and parser -/

theorem quoteField_head (s : List Char) :
    (quoteField s).head?.map Char.toNat = some 10 ↔ s.head?.map Char.toNat = some 10 := by
  cases s with
  | nil => simp [quoteField]
  | cons c cs =>
    by_cases hq : c.toNat = 34
    · have h34 : (Char.ofNat 34).toNat = 34 := rfl
      simp [quoteField, hq, h34]
    · simp [quoteField, hq]

theorem sprintfD_ne_empty (n : Int) : sprintfD n ≠ "" := by
  obtain ⟨c, cs, hcs, _⟩ := natDigitsFuel_head (n.natAbs + 1) n.natAbs (by omega)
  intro h
  have hd : (sprintfD n).data = [] := by rw [h]
  unfold sprintfD at hd
  split_ifs at hd
  simp [natDigits, hcs] at hd

theorem parseCSV.buildColumn_index (entry : Config) (col : parseCSVColumn)
    (h : parseCSV.buildColumn entry = .ok col) : col.index = 0 := by
  simp only [parseCSV.buildColumn, bind, Except.bind, pure, Except.pure] at h
  repeat' split at h
  all_goals cases h
  rfl

theorem parseCSV.buildColumns_index (entries : List Config) (cols : List parseCSVColumn)
    (h : parseCSV.buildColumns entries = .ok cols) : ∀ col ∈ cols, col.index = 0 := by
  induction entries generalizing cols with
  | nil =>
    simp only [parseCSV.buildColumns] at h
    injection h with h
    subst h
    simp
  | cons e rest ih =>
    simp only [parseCSV.buildColumns] at h
    cases h1 : parseCSV.buildColumn e with
    | error _ => simp [h1] at h
    | ok c =>
      cases h2 : parseCSV.buildColumns rest with
      | error _ => simp [h1, h2] at h
      | ok cs =>
        simp only [h1, h2] at h
        injection h with h
        subst h
        intro col hc
        rcases List.mem_cons.mp hc with e1 | e1
        · rw [e1]; exact parseCSV.buildColumn_index e c h1
        · exact ih cs h2 col e1

/-- Whatever the configuration map holds, a configuration `buildConfig` builds
has `ignoreUnmappedColumns` false and the index 0 in every column spec. -/
theorem parseCSV.buildConfig_zero_values (config : List (String × Config)) (c : parseCSVConfig)
    (h : parseCSV.buildConfig config = .ok c) :
    c.ignoreUnmappedColumns = false ∧ ∀ col ∈ c.columns, col.index = 0 := by
  simp only [parseCSV.buildConfig, bind, Except.bind, pure, Except.pure] at h
  cases h0 : (Config.get config "columns").asArr with
  | error _ => simp [h0] at h
  | ok entries =>
    cases h1 : parseCSV.buildColumns entries with
    | error _ => simp [h0, h1] at h
    | ok cols =>
      cases h2 : (Config.get config "hasHeaderRow").asBool with
      | error _ => simp [h0, h1, h2] at h
      | ok hb =>
        cases h3 : (Config.get config "useHeaderColumnNamesAsFieldNames").asBool with
        | error _ => simp [h0, h1, h2, h3] at h
        | ok ub =>
          simp only [h0, h1, h2, h3] at h
          injection h with h
          subst h
          exact ⟨rfl, parseCSV.buildColumns_index entries cols h1⟩

/-- C18 (failing input): `buildConfig` never sets `ignoreUnmappedColumns`.  The
configuration map with a header row, the one column `a` and
`ignoreUnmappedColumns` set to true is built into a configuration whose flag is
false, and with it the row `1`, `2` under the header `a`, `b`, whose second
column matches no column spec, is not parsed with that column skipped:
`parseFile` panics on it. -/
theorem C18_buildConfig_drops_ignoreUnmappedColumns :
    (∀ (config : List (String × Config)) (c : parseCSVConfig),
      parseCSV.buildConfig config = .ok c → c.ignoreUnmappedColumns = false) ∧
    Config.get ignoringConfigMap "ignoreUnmappedColumns" = Config.bool true ∧
    parseCSV.buildConfig ignoringConfigMap
      = .ok ⟨true, false, false, ",", [⟨0, "a", "string", "", "a"⟩]⟩ ∧
    (∀ lib : GoLib,
      parseCSV.parseFile lib ⟨⟨true, false, false, ",", [⟨0, "a", "string", "", "a"⟩]⟩, []⟩
          [.ok ["a", "b"], .ok ["1", "2"]]
        = ⟨[], some "runtime error: invalid memory address or nil pointer dereference"⟩) ∧
    (∀ lib : GoLib,
      parseCSV.parseFile lib ⟨⟨true, false, true, ",", [⟨0, "a", "string", "", "a"⟩]⟩, []⟩
          [.ok ["a", "b"], .ok ["1", "2"]]
        = ⟨[(DEFAULT_OUTPUT_PORT_NAME, ⟨[("a", Value.str "1")]⟩)], none⟩) :=
  ⟨fun config c h => (parseCSV.buildConfig_zero_values config c h).1, rfl, rfl,
    fun _ => rfl, fun _ => rfl⟩

/-- C18 at a concrete input: the map with `ignoreUnmappedColumns` set to true
is built, and the flag of the built configuration is false. -/
theorem C18_buildConfig_drops_ignoreUnmappedColumns_witness :
    ∃ c, parseCSV.buildConfig ignoringConfigMap = .ok c ∧ c.ignoreUnmappedColumns = false :=
  ⟨_, rfl, C18_buildConfig_drops_ignoreUnmappedColumns.1 ignoringConfigMap _ rfl⟩

/-- A headerless row of two or more cells is never parsed under a built
configuration: every column spec has index 0, so the cell at position 1 finds
none. -/
theorem parseCSV.parseLine_headerless_two_cells (lib : GoLib) (config : List (String × Config))
    (c : parseCSVConfig) (h : parseCSV.buildConfig config = .ok c)
    (hh : c.hasHeaderRow = false) (names : List String) (x y : String) (rest : List String) :
    ∃ e, parseCSV.parseLine lib ⟨c, names⟩ (x :: y :: rest) = .error e := by
  obtain ⟨hig, hidx⟩ := parseCSV.buildConfig_zero_values config c h
  have hres1 : (parseCSV.mk c names).resolve 1 = .ok none := by
    have hnone : ∀ col ∈ c.columns, ¬ col.index = 1 := by
      intro col hc
      rw [hidx col hc]
      decide
    simp [parseCSV.resolve, hh, parseCSV.getColumnConfigByIndex, bind, Except.bind, pure,
      Except.pure]
    exact hnone
  have hstep : ∀ rec, parseCSV.parseLineFrom lib ⟨c, names⟩ 1 (y :: rest) rec
      = .error unmappedColumnPanic := by
    intro rec
    simp [parseCSV.parseLineFrom, hres1, hig, hh]
  unfold parseCSV.parseLine
  rw [parseCSV.parseLineFrom]
  cases h0 : (parseCSV.mk c names).resolve 0 with
  | error e => exact ⟨e, rfl⟩
  | ok o =>
    cases o with
    | none => exact ⟨unmappedColumnPanic, by simp [hig, hh]⟩
    | some col =>
      cases hv : parseCSV.convert lib col x with
      | error e => exact ⟨e, by simp only [hv]⟩
      | ok v => exact ⟨unmappedColumnPanic, by simp only [hv, hstep]⟩

/-- C19 (failing input): `buildConfig` never sets `index`.  The configuration
map without header row whose columns `a` and `b` name the positions 0 and 1 is
built into column specs that both have index 0; the headerless row `x`, `y`
then yields no record of 2 fields: `parseLine` panics at the second cell.  So
it is for every built configuration without header row and every row of two
or more cells. -/
theorem C19_buildConfig_drops_index :
    (∀ (config : List (String × Config)) (c : parseCSVConfig),
      parseCSV.buildConfig config = .ok c → ∀ col ∈ c.columns, col.index = 0) ∧
    (∀ (lib : GoLib) (config : List (String × Config)) (c : parseCSVConfig),
      parseCSV.buildConfig config = .ok c → c.hasHeaderRow = false →
      ∀ (names : List String) (x y : String) (rest : List String),
      ∃ e, parseCSV.parseLine lib ⟨c, names⟩ (x :: y :: rest) = .error e) ∧
    parseCSV.buildConfig (positionalConfigMap false)
      = .ok ⟨false, false, false, ",",
          [⟨0, "a", "string", "", "a"⟩, ⟨0, "b", "string", "", "b"⟩]⟩ ∧
    (∀ lib : GoLib,
      parseCSV.parseLine lib
          ⟨⟨false, false, false, ",",
            [⟨0, "a", "string", "", "a"⟩, ⟨0, "b", "string", "", "b"⟩]⟩, []⟩ ["x", "y"]
        = .error unmappedColumnPanic) ∧
    (∀ lib : GoLib,
      parseCSV.parseLine lib
          ⟨⟨false, false, false, ",",
            [⟨0, "a", "string", "", "a"⟩, ⟨1, "b", "string", "", "b"⟩]⟩, []⟩ ["x", "y"]
        = .ok ⟨[("a", Value.str "x"), ("b", Value.str "y")]⟩) :=
  ⟨fun config c h => (parseCSV.buildConfig_zero_values config c h).2,
    fun lib config c h hh names x y rest =>
      parseCSV.parseLine_headerless_two_cells lib config c h hh names x y rest,
    rfl, fun _ => rfl, fun _ => rfl⟩

/-- C19 at a concrete input: the positional map is built, every column spec of
the built configuration has index 0, and the row `x`, `y` is not parsed. -/
theorem C19_buildConfig_drops_index_witness :
    (∃ c, parseCSV.buildConfig (positionalConfigMap false) = .ok c ∧
      ∀ col ∈ c.columns, col.index = 0) ∧
    (∀ lib : GoLib, ∃ e,
      parseCSV.parseLine lib
          ⟨⟨false, false, false, ",",
            [⟨0, "a", "string", "", "a"⟩, ⟨0, "b", "string", "", "b"⟩]⟩, []⟩ ["x", "y"]
        = .error e) :=
  ⟨⟨_, rfl, C19_buildConfig_drops_index.1 (positionalConfigMap false) _ rfl⟩,
   fun lib => C19_buildConfig_drops_index.2.1 lib (positionalConfigMap false) _ rfl rfl
    [] "x" "y" []⟩

/-! ## Theorems: comparisons against a float or numeric right operand -/

/-- The denominator of the ratio of a float64 is positive. -/
theorem F64.ratio_den_pos (x : F64) : 0 < x.ratio.2 := by
  have hpow : ∀ e : Nat, 0 < 2 ^ e := fun e => Nat.two_pow_pos e
  unfold F64.ratio
  split_ifs
  · apply hpow
  · exact Nat.one_pos
  · apply hpow

/-- The rounded quotient is within one half of the exact one. -/
theorem roundHalfEven_nearest (num den : Nat) (hden : 0 < den) :
    2 * (roundHalfEven num den * den) ≤ 2 * num + den ∧
    2 * num ≤ 2 * (roundHalfEven num den * den) + den := by
  have hdm := Nat.div_add_mod num den
  have hlt := Nat.mod_lt num hden
  have hmul : den * (num / den) = num / den * den := Nat.mul_comm _ _
  unfold roundHalfEven
  split_ifs with h
  · rw [Nat.add_mul, Nat.one_mul]
    generalize num / den * den = q at *
    generalize num % den = m at *
    rcases h with h | ⟨h, _⟩ <;> omega
  · generalize num / den * den = q at *
    generalize num % den = m at *
    have h1 : ¬ den < 2 * m := fun hh => h (Or.inl hh)
    omega

/-- An exact quotient is left alone. -/
theorem roundHalfEven_exact (k den : Nat) (hden : 0 < den) :
    roundHalfEven (k * den) den = k := by
  unfold roundHalfEven
  have h1 : k * den % den = 0 := Nat.mul_mod_left k den
  have h2 : k * den / den = k := Nat.mul_div_cancel k hden
  rw [h1, h2]
  have : ¬ (den < 2 * 0 ∨ 2 * 0 = den ∧ k % 2 = 1) := by omega
  rw [if_neg this]

theorem natDigits_head (k : Nat) : ∃ c cs, natDigits k = c :: cs ∧ 48 ≤ c.toNat :=
  natDigitsFuel_head (k + 1) k (by omega)

theorem parseDigits_natDigits (k : Nat) : parseDigits (natDigits k) 0 = some k :=
  parseDigits_natDigitsFuel (k + 1) k (by omega)

/-- What `Atoi` makes of an optional minus sign and the decimal digits of `k`:
the signed value when it is a 64-bit integer, the nearest bound and an error
otherwise. -/
theorem Atoi_signed_digits (neg : Bool) (k : Nat) :
    Atoi (String.mk ((if neg then [Char.ofNat 45] else []) ++ natDigits k)) =
      if neg then (if 2 ^ 63 < k then (-(2 : Int) ^ 63, false) else (-(k : Int), true))
      else (if 2 ^ 63 ≤ k then ((2 : Int) ^ 63 - 1, false) else ((k : Int), true)) := by
  obtain ⟨c, cs, hcs, hc⟩ := natDigits_head k
  have hp := parseDigits_natDigits k
  have h45 : (Char.ofNat 45).toNat = 45 := rfl
  cases neg with
  | true =>
    have hne : natDigits k ≠ [] := by simp [hcs]
    by_cases hk : 2 ^ 63 < k
    · have hk2 : 9223372036854775808 < k := by omega
      simp [Atoi, ParseInt, h45, hne, hp, hk2]
    · have hk2 : ¬ 9223372036854775808 < k := by omega
      simp [Atoi, ParseInt, h45, hne, hp, hk2]
  | false =>
    have h43 : c.toNat ≠ 43 := by omega
    have h45c : c.toNat ≠ 45 := by omega
    rw [hcs] at hp
    by_cases hk : 2 ^ 63 ≤ k
    · have hk2 : 9223372036854775808 ≤ k := by omega
      simp [Atoi, ParseInt, hcs, h43, h45c, hp, hk2]
    · have hk2 : ¬ 9223372036854775808 ≤ k := by omega
      simp [Atoi, ParseInt, hcs, h43, h45c, hp, hk2]

theorem formatFixed_zero (r : F64) (hfin : r.isFinite = true) :
    formatFixed 0 r = String.mk ((if r.sign then [Char.ofNat 45] else []) ++
      natDigits (roundHalfEven r.ratio.1 r.ratio.2)) := by
  have hexp : r.exp < 2047 := by simpa [F64.isFinite] using hfin
  have hnan : r.isNaN = false := by
    simp [F64.isNaN]; intro h; omega
  have hne : ¬ r.exp = 2047 := by omega
  simp [formatFixed, hnan, hne]

theorem padDigits_length (width n : Nat) : (padDigits width n).length = width := by
  induction width generalizing n with
  | zero => rfl
  | succ w ih => simp [padDigits, ih]

theorem formatFixed_six (r : F64) (hfin : r.isFinite = true) :
    formatFixed 6 r = String.mk ((if r.sign then [Char.ofNat 45] else []) ++
      natDigits (roundHalfEven (r.ratio.1 * 10 ^ 6) r.ratio.2 / 10 ^ 6) ++
      Char.ofNat 46 :: padDigits 6 (roundHalfEven (r.ratio.1 * 10 ^ 6) r.ratio.2 % 10 ^ 6)) := by
  have hexp : r.exp < 2047 := by simpa [F64.isFinite] using hfin
  have hnan : r.isNaN = false := by
    simp [F64.isNaN]; intro h; omega
  have hne : ¬ r.exp = 2047 := by omega
  simp [formatFixed, hnan, hne]


/-- The float constants of the examples are the float64 values nearest to the
decimals they stand for: 1.5, 2.5 and 3.5 exactly, 2.7, 2.2 and -0.4 within
half a unit of the last place. -/
theorem float_constants_values :
    2 * float1p5.ratio.1 = 3 * float1p5.ratio.2 ∧
    2 * float2p5.ratio.1 = 5 * float2p5.ratio.2 ∧
    2 * float3p5.ratio.1 = 7 * float3p5.ratio.2 ∧
    (F64.ofNat 50).ratio.1 = 50 * (F64.ofNat 50).ratio.2 ∧
    (float2p7.ratio.2 = 2 ^ 51 ∧ 10 * float2p7.ratio.1 ≤ 27 * 2 ^ 51 + 5 ∧
      27 * 2 ^ 51 ≤ 10 * float2p7.ratio.1 + 5) ∧
    (float2p2.ratio.2 = 2 ^ 51 ∧ 10 * float2p2.ratio.1 ≤ 22 * 2 ^ 51 + 5 ∧
      22 * 2 ^ 51 ≤ 10 * float2p2.ratio.1 + 5) ∧
    (floatMinus0p4.sign = true ∧ floatMinus0p4.ratio.2 = 2 ^ 54 ∧
      10 * floatMinus0p4.ratio.1 ≤ 4 * 2 ^ 54 + 5 ∧
      4 * 2 ^ 54 ≤ 10 * floatMinus0p4.ratio.1 + 5) ∧
    float2to63.ratio = (2 ^ 63, 1) := by
  decide

/-- The text of `%.0f` and of `%f` for the float constants of the examples. -/
theorem formatFixed_examples :
    formatFixed 0 float2p7 = "3" ∧ formatFixed 0 float2p2 = "2" ∧
    formatFixed 0 float1p5 = "2" ∧ formatFixed 0 float2p5 = "2" ∧
    formatFixed 0 float3p5 = "4" ∧ formatFixed 0 floatMinus0p4 = "-0" ∧
    formatFixed 0 (F64.ofNat 50) = "50" ∧
    formatFixed 0 float2to63 = "9223372036854775808" ∧
    formatFixed 6 float1p5 = "1.500000" ∧ formatFixed 6 float2p7 = "2.700000" ∧
    formatFixed 6 floatMinus0p4 = "-0.400000" ∧
    formatFixed 6 (F64.ofNat 50) = "50.000000" ∧
    formatFixed 6 F64.nan = "NaN" ∧ formatFixed 6 (F64.inf false) = "+Inf" ∧
    formatFixed 6 (F64.inf true) = "-Inf" := by
  decide

/-- C21: with an integer `n` of any width as left operand and a finite float
`r` (float32 or float64) as right operand, where `%.0f` prints as Go does, each
of the six operators returns the boolean `n op m` for the integer `m` that
`Atoi` makes of the text `%.0f` prints for `r`.  That text is an optional minus
sign and the decimal digits of the natural number `k` nearest to the magnitude
of `r` (within one half of it); and `m` is `k` with the sign of `r` whenever
that is a 64-bit integer, the nearest 64-bit bound otherwise. -/
theorem C21_integer_against_float (lib : GoLib) (n : Int) (r : F64) (x y : Value)
    (hx : x ∈ [Value.int n, Value.int8 n, Value.int16 n, Value.int32 n, Value.int64 n])
    (hy : y ∈ [Value.float32 r, Value.float64 r])
    (hlib : lib.sprintf0F r = formatFixed 0 r) (hfin : r.isFinite = true) :
    (∀ op b, intOp op n (Atoi (formatFixed 0 r)).1 = some b → compare lib x op y = .ok b) ∧
    formatFixed 0 r = String.mk ((if r.sign then [Char.ofNat 45] else []) ++
      natDigits (roundHalfEven r.ratio.1 r.ratio.2)) ∧
    (2 * (roundHalfEven r.ratio.1 r.ratio.2 * r.ratio.2) ≤ 2 * r.ratio.1 + r.ratio.2 ∧
      2 * r.ratio.1 ≤ 2 * (roundHalfEven r.ratio.1 r.ratio.2 * r.ratio.2) + r.ratio.2) ∧
    (Atoi (formatFixed 0 r)).1 =
      (if r.sign then
        (if 2 ^ 63 < roundHalfEven r.ratio.1 r.ratio.2 then -(2 : Int) ^ 63
         else -(roundHalfEven r.ratio.1 r.ratio.2 : Int))
       else
        (if 2 ^ 63 ≤ roundHalfEven r.ratio.1 r.ratio.2 then (2 : Int) ^ 63 - 1
         else (roundHalfEven r.ratio.1 r.ratio.2 : Int))) := by
  have hcmp : ∀ op, compare lib x op y =
      compareAsInts lib n op (Value.str (formatFixed 0 r)) := by
    intro op
    simp only [List.mem_cons, List.mem_singleton, List.not_mem_nil, or_false] at hx hy
    rcases hx with h | h | h | h | h <;> subst h <;> rcases hy with h | h <;> subst h <;>
      simp only [compare, compareAsInts, hlib]
  refine ⟨?_, formatFixed_zero r hfin, roundHalfEven_nearest _ _ (F64.ratio_den_pos r), ?_⟩
  · intro op b h
    rw [hcmp op]
    exact compareAsInts_string lib n (formatFixed 0 r) op b h
  · rw [formatFixed_zero r hfin, Atoi_signed_digits]
    cases r.sign <;> simp only [Bool.false_eq_true, if_true, if_false] <;> split_ifs <;> rfl

/-- C21 at 2.7, 2.2, 2.5, 3.5, -0.4 and 2^63: they become 3, 2, 2, 4, 0 and the
largest 64-bit integer. -/
theorem C21_integer_against_float_witness :
    (∀ lib : GoLib,
      compare lib.withFloatText (Value.int 3) "==" (Value.float64 float2p7) = .ok true) ∧
    (∀ lib : GoLib,
      compare lib.withFloatText (Value.int8 2) ">=" (Value.float32 float2p2) = .ok true) ∧
    (∀ lib : GoLib,
      compare lib.withFloatText (Value.int64 2) "==" (Value.float64 float2p5) = .ok true) ∧
    (∀ lib : GoLib,
      compare lib.withFloatText (Value.int 3) "<" (Value.float64 float3p5) = .ok true) ∧
    (∀ lib : GoLib,
      compare lib.withFloatText (Value.int 0) "==" (Value.float64 floatMinus0p4) = .ok true) ∧
    (∀ lib : GoLib,
      compare lib.withFloatText (Value.int (2 ^ 63 - 1)) "==" (Value.float64 float2to63) =
        .ok true) :=
  ⟨fun lib => (C21_integer_against_float lib.withFloatText 3 float2p7 (Value.int 3)
      (Value.float64 float2p7) (by simp) (by simp) rfl rfl).1 "==" true (by decide),
   fun lib => (C21_integer_against_float lib.withFloatText 2 float2p2 (Value.int8 2)
      (Value.float32 float2p2) (by simp) (by simp) rfl rfl).1 ">=" true (by decide),
   fun lib => (C21_integer_against_float lib.withFloatText 2 float2p5 (Value.int64 2)
      (Value.float64 float2p5) (by simp) (by simp) rfl rfl).1 "==" true (by decide),
   fun lib => (C21_integer_against_float lib.withFloatText 3 float3p5 (Value.int 3)
      (Value.float64 float3p5) (by simp) (by simp) rfl rfl).1 "<" true (by decide),
   fun lib => (C21_integer_against_float lib.withFloatText 0 floatMinus0p4 (Value.int 0)
      (Value.float64 floatMinus0p4) (by simp) (by simp) rfl rfl).1 "==" true (by decide),
   fun lib => (C21_integer_against_float lib.withFloatText (2 ^ 63 - 1) float2to63
      (Value.int (2 ^ 63 - 1)) (Value.float64 float2to63) (by simp) (by simp) rfl rfl).1
      "==" true (by decide)⟩

theorem compareAsStrings_string (lib : GoLib) (s t op : String) (b : Bool)
    (h : strOp lib op s t = some b) :
    compareAsStrings lib s op (Value.str t) = .ok b := by
  unfold strOp at h
  simp only [compareAsStrings, bind, Except.bind, pure, Except.pure]
  split_ifs at h ⊢ <;> simp_all

/-- C22 (as stated) fails for a float right operand: the code formats it with
`%f`, which prints six decimal places, so 1.5 becomes `1.500000` and 50.0
becomes `50.000000`, and neither the string `1.5` equals the float 1.5 nor the
string `50` the float 50.0. -/
theorem C22_string_against_float_not_default_text :
    2 * float1p5.ratio.1 = 3 * float1p5.ratio.2 ∧
    formatFixed 6 float1p5 = "1.500000" ∧
    formatFixed 6 (F64.ofNat 50) = "50.000000" ∧
    (∀ lib : GoLib,
      compare lib.withFloatText (Value.str "1.5") "==" (Value.float64 float1p5) = .ok false) ∧
    (∀ lib : GoLib,
      compare lib.withFloatText (Value.str "50") "==" (Value.float64 (F64.ofNat 50)) =
        .ok false) ∧
    (∀ lib : GoLib,
      compare lib.withFloatText (Value.str "1.5") "!=" (Value.float32 float1p5) = .ok true) :=
  ⟨by decide, by decide, by decide, fun _ => rfl, fun _ => rfl, fun _ => rfl⟩

/-- C22 (amended): with a string `s` as left operand and a numeric right
operand, the right operand is first converted to text, an integer of any width
to its decimal digits (`%d`) and a float32 or float64 to its text with six
decimal places (`%f`, printing as Go does), and the operator (one of the six
comparisons or `regex`) is then applied to the two strings.  For a finite float
the text is an optional minus sign, the digits of the integer part, a point and
exactly six digits, those of the magnitude rounded to the nearest millionth. -/
theorem C22_string_against_numeric_text (lib : GoLib) (s : String) (n : Int) (r : F64)
    (hlib : lib.sprintfF r = formatFixed 6 r) :
    (∀ y ∈ [Value.int n, Value.int8 n, Value.int16 n, Value.int32 n, Value.int64 n],
      ∀ op b, strOp lib op s (sprintfD n) = some b → compare lib (Value.str s) op y = .ok b) ∧
    (∀ y ∈ [Value.float32 r, Value.float64 r],
      ∀ op b, strOp lib op s (formatFixed 6 r) = some b →
        compare lib (Value.str s) op y = .ok b) ∧
    (r.isFinite = true →
      formatFixed 6 r = String.mk ((if r.sign then [Char.ofNat 45] else []) ++
        natDigits (roundHalfEven (r.ratio.1 * 10 ^ 6) r.ratio.2 / 10 ^ 6) ++
        Char.ofNat 46 :: padDigits 6 (roundHalfEven (r.ratio.1 * 10 ^ 6) r.ratio.2 % 10 ^ 6)) ∧
      (padDigits 6 (roundHalfEven (r.ratio.1 * 10 ^ 6) r.ratio.2 % 10 ^ 6)).length = 6 ∧
      2 * (roundHalfEven (r.ratio.1 * 10 ^ 6) r.ratio.2 * r.ratio.2) ≤
        2 * (r.ratio.1 * 10 ^ 6) + r.ratio.2 ∧
      2 * (r.ratio.1 * 10 ^ 6) ≤
        2 * (roundHalfEven (r.ratio.1 * 10 ^ 6) r.ratio.2 * r.ratio.2) + r.ratio.2) := by
  refine ⟨?_, ?_, ?_⟩
  · intro y hy op b h
    have hcmp : compare lib (Value.str s) op y =
        compareAsStrings lib s op (Value.str (sprintfD n)) := by
      simp only [List.mem_cons, List.mem_singleton, List.not_mem_nil, or_false] at hy
      rcases hy with h | h | h | h | h <;> subst h <;> rfl
    rw [hcmp]
    exact compareAsStrings_string lib s (sprintfD n) op b h
  · intro y hy op b h
    have hcmp : compare lib (Value.str s) op y =
        compareAsStrings lib s op (Value.str (formatFixed 6 r)) := by
      simp only [List.mem_cons, List.mem_singleton, List.not_mem_nil, or_false] at hy
      rcases hy with h | h <;> subst h <;> simp only [compare, compareAsStrings, hlib]
    rw [hcmp]
    exact compareAsStrings_string lib s (formatFixed 6 r) op b h
  · intro hfin
    exact ⟨formatFixed_six r hfin, padDigits_length _ _,
      roundHalfEven_nearest _ _ (F64.ratio_den_pos r)⟩

/-- C22 (amended) at its examples: the string `50` equals the integer 50, the
string `1.500000` equals the float 1.5, and the string `50.000000` equals the
float 50.0. -/
theorem C22_string_against_numeric_text_witness :
    (∀ lib : GoLib,
      compare lib.withFloatText (Value.str "50") "==" (Value.int 50) = .ok true) ∧
    (∀ lib : GoLib,
      compare lib.withFloatText (Value.str "1.500000") "==" (Value.float64 float1p5) =
        .ok true) ∧
    (∀ lib : GoLib,
      compare lib.withFloatText (Value.str "50.000000") "==" (Value.float32 (F64.ofNat 50)) =
        .ok true) ∧
    (∀ lib : GoLib,
      compare lib.withFloatText (Value.str "9") ">" (Value.int64 10) = .ok true) :=
  ⟨fun lib => (C22_string_against_numeric_text lib.withFloatText "50" 50 float1p5 rfl).1
      (Value.int 50) (by simp) "==" true rfl,
   fun lib => (C22_string_against_numeric_text lib.withFloatText "1.500000" 50 float1p5 rfl).2.1
      (Value.float64 float1p5) (by simp) "==" true rfl,
   fun lib => (C22_string_against_numeric_text lib.withFloatText "50.000000" 50 (F64.ofNat 50)
      rfl).2.1 (Value.float32 (F64.ofNat 50)) (by simp) "==" true rfl,
   fun lib => (C22_string_against_numeric_text lib.withFloatText "9" 10 float1p5 rfl).1
      (Value.int64 10) (by simp) ">" true rfl⟩

end GoProjectFunctions
